import Mathlib

/-
Verification development for the Spark-DSG scene-graph visualizer
(src/kimera_dsg_visualizer/src/visualizer_utils.cpp and
src/kimera_dsg_visualizer/src/scene_graph_visualizer.cpp).

The C++ sources are shallowly embedded: machine doubles in the ratio helper
are modelled by an extended-rational type with IEEE-style special values,
all other scalar fields by rationals, ROS markers by a plain record, and
C++ exceptions (std::bad_cast from the kind-checked attribute casts,
std::out_of_range from std::map::at, dereference of an empty optional) by
an explicit error monad.
-/

set_option autoImplicit false

namespace KimeraViz

/-! ## Extended reals modelling IEEE doubles for the ratio helper -/

/-- Model of a C++ double for the purposes of getRatio (visualizer_utils.cpp
lines 17-23): a finite value (rational), NaN, or a signed infinity. -/
inductive FloatVal where
  | fin (q : ℚ)
  | nan
  | pinf
  | ninf
deriving DecidableEq

/-- IEEE-style subtraction on the double model. -/
def FloatVal.sub : FloatVal → FloatVal → FloatVal
  | .fin a, .fin b => .fin (a - b)
  | .nan, _ => .nan
  | .fin _, .nan => .nan
  | .pinf, .nan => .nan
  | .ninf, .nan => .nan
  | .pinf, .pinf => .nan
  | .pinf, .ninf => .pinf
  | .pinf, .fin _ => .pinf
  | .ninf, .pinf => .ninf
  | .ninf, .ninf => .nan
  | .ninf, .fin _ => .ninf
  | .fin _, .pinf => .ninf
  | .fin _, .ninf => .pinf

/-- IEEE-style division on the double model (x/0 gives a signed infinity for
x nonzero and NaN for 0/0; inf/inf gives NaN). -/
def FloatVal.div : FloatVal → FloatVal → FloatVal
  | .nan, _ => .nan
  | .fin _, .nan => .nan
  | .pinf, .nan => .nan
  | .ninf, .nan => .nan
  | .fin a, .fin b =>
    if b = 0 then (if a = 0 then .nan else if 0 < a then .pinf else .ninf)
    else .fin (a / b)
  | .fin _, .pinf => .fin 0
  | .fin _, .ninf => .fin 0
  | .pinf, .fin b => if b < 0 then .ninf else .pinf
  | .ninf, .fin b => if b < 0 then .pinf else .ninf
  | .pinf, .pinf => .nan
  | .pinf, .ninf => .nan
  | .ninf, .pinf => .nan
  | .ninf, .ninf => .nan

/-- std::isfinite on the double model. -/
def FloatVal.isFinite : FloatVal → Bool
  | .fin _ => true
  | _ => false

/-- IEEE-style strict greater-than; any comparison with NaN is false. -/
def FloatVal.gtF : FloatVal → FloatVal → Bool
  | .fin a, .fin b => decide (b < a)
  | .nan, _ => false
  | .fin _, .nan => false
  | .pinf, .nan => false
  | .ninf, .nan => false
  | .pinf, .pinf => false
  | .pinf, _ => true
  | .fin _, .pinf => false
  | .ninf, .pinf => false
  | .ninf, .fin _ => false
  | .ninf, .ninf => false
  | .fin _, .ninf => true

/-- IEEE-style strict less-than; any comparison with NaN is false. -/
def FloatVal.ltF (a b : FloatVal) : Bool := FloatVal.gtF b a

/-- Embeds line 19 of visualizer_utils.cpp: a non-finite ratio is replaced
by 0. -/
def denanF (v : FloatVal) : FloatVal :=
  if v.isFinite = false then FloatVal.fin 0 else v

/-- Embeds line 20 of visualizer_utils.cpp: values above 1 are clamped. -/
def clampHiF (v : FloatVal) : FloatVal :=
  if v.gtF (FloatVal.fin 1) then FloatVal.fin 1 else v

/-- Embeds line 21 of visualizer_utils.cpp: values below 0 are clamped. -/
def clampLoF (v : FloatVal) : FloatVal :=
  if v.ltF (FloatVal.fin 0) then FloatVal.fin 0 else v

/-- Embeds getRatio (visualizer_utils.cpp lines 17-23): compute
(value - min) / (max - min), replace a non-finite result by 0, then clamp
to [0, 1]. -/
def getRatio (mn mx value : FloatVal) : FloatVal :=
  clampLoF (clampHiF (denanF (FloatVal.div (FloatVal.sub value mn) (FloatVal.sub mx mn))))

/-- C7: the ratio function is total on the double model: for every inputs
(finite, NaN or infinite, including min = max) it returns a finite value in
[0, 1], and whenever the raw linear normalization (value-min)/(max-min) is
non-finite it returns 0.  It is a plain total function, so it never raises. -/
theorem c7_ratio_total (a b c : FloatVal) :
    (∃ q : ℚ, getRatio a b c = FloatVal.fin q ∧ 0 ≤ q ∧ q ≤ 1) ∧
      ((FloatVal.div (FloatVal.sub c a) (FloatVal.sub b a)).isFinite = false →
        getRatio a b c = FloatVal.fin 0) := by
  unfold getRatio
  rcases h : FloatVal.div (FloatVal.sub c a) (FloatVal.sub b a) with q | _ | _ | _
  · constructor
    · by_cases h1 : (1 : ℚ) < q
      · refine ⟨1, ?_, by norm_num, le_refl 1⟩
        simp [denanF, clampHiF, clampLoF, FloatVal.isFinite, FloatVal.gtF, FloatVal.ltF, h1]
      · by_cases h0 : q < 0
        · refine ⟨0, ?_, le_refl 0, by norm_num⟩
          simp [denanF, clampHiF, clampLoF, FloatVal.isFinite, FloatVal.gtF, FloatVal.ltF,
            h1, h0]
        · refine ⟨q, ?_, by linarith, by linarith⟩
          simp [denanF, clampHiF, clampLoF, FloatVal.isFinite, FloatVal.gtF, FloatVal.ltF,
            h1, h0]
    · intro hfin
      simp [FloatVal.isFinite] at hfin
  all_goals
    exact ⟨⟨0, by simp [denanF, clampHiF, clampLoF, FloatVal.isFinite, FloatVal.gtF,
        FloatVal.ltF], le_refl 0, by norm_num⟩,
      fun _ => by simp [denanF, clampHiF, clampLoF, FloatVal.isFinite, FloatVal.gtF,
        FloatVal.ltF]⟩

/-- C7 witness: with min = NaN the raw normalization is NaN, hence
non-finite, and the returned ratio is 0. -/
theorem c7_ratio_total_witness :
    getRatio FloatVal.nan (FloatVal.fin 1) (FloatVal.fin 5) = FloatVal.fin 0 :=
  (c7_ratio_total FloatVal.nan (FloatVal.fin 1) (FloatVal.fin 5)).2 (by decide)

/-! ## Scene-graph data model

Positions and scalar style fields are rationals (modelling doubles; no
verified claim depends on rounding).  Node attributes are the variant
hierarchy NodeAttributes < SemanticNodeAttributes < ObjectNodeAttributes /
PlaceNodeAttributes of kimera_dsg; the kind-checked `attributes<T>()` casts
return an error monad in place of throwing std::bad_cast. -/

/-- A 3D position / scale vector. -/
structure Point where
  x : ℚ
  y : ℚ
  z : ℚ
deriving DecidableEq

/-- A quaternion (rotation); only carried through, never computed with. -/
structure Quat where
  w : ℚ
  qx : ℚ
  qy : ℚ
  qz : ℚ
deriving DecidableEq

/-- The all-zero quaternion, the ROS message default. -/
def quatZero : Quat := ⟨0, 0, 0, 0⟩

/-- The identity quaternion written by fillPoseWithIdentity / tf2 convert. -/
def quatIdentity : Quat := ⟨1, 0, 0, 0⟩

/-- An RGB color triple (kimera NodeColor). -/
structure NodeColor where
  r : ℚ
  g : ℚ
  b : ℚ
deriving DecidableEq

/-- The sentinel color written by `desired_color << 1.0, 0.0, 0.0`. -/
def sentinelRed : NodeColor := ⟨1, 0, 0⟩

/-- Bounding-box type tag (kimera BoundingBox::Type); INVALID covers every
value that is neither OBB nor AABB. -/
inductive BBType where
  | OBB
  | AABB
  | INVALID
deriving DecidableEq

/-- A kimera BoundingBox: type tag, world-frame center pose and extrema. -/
structure BoundingBox where
  btype : BBType
  world_P_center : Point
  world_R_center : Quat
  bmin : Point
  bmax : Point
deriving DecidableEq

/-- Node attribute variants: base NodeAttributes carries only a position;
SemanticNodeAttributes adds a color; ObjectNodeAttributes extends it with a
bounding box; PlaceNodeAttributes extends it with a clearance distance. -/
inductive NodeAttrs where
  | base (position : Point)
  | semantic (position : Point) (color : NodeColor)
  | object (position : Point) (color : NodeColor) (bounding_box : BoundingBox)
  | place (position : Point) (color : NodeColor) (distance : ℚ)
deriving DecidableEq

/-- attributes() without a cast: the position, defined for every variant. -/
def NodeAttrs.position : NodeAttrs → Point
  | .base p => p
  | .semantic p _ => p
  | .object p _ _ => p
  | .place p _ _ => p

/-- Failures of the embedded pipeline: badCast models std::bad_cast from a
kind-checked attribute cast, missingConfig models std::out_of_range from
std::map::at on the layer-config map, badNode models dereferencing an
unresolvable node handle. -/
inductive VizError where
  | badCast
  | missingConfig
  | badNode
deriving DecidableEq

/-- attributes<SemanticNodeAttributes>(): succeeds (with the color) for the
semantic variant and its subtypes, fails with bad_cast on base attributes. -/
def attributesSemantic : NodeAttrs → Except VizError NodeColor
  | .semantic _ c => .ok c
  | .object _ c _ => .ok c
  | .place _ c _ => .ok c
  | .base _ => .error .badCast

/-- attributes<ObjectNodeAttributes>(): succeeds only for the object
variant. -/
def attributesObject : NodeAttrs → Except VizError (NodeColor × BoundingBox)
  | .object _ c bb => .ok (c, bb)
  | _ => .error .badCast

/-- attributes<PlaceNodeAttributes>(): succeeds only for the place
variant. -/
def attributesPlace : NodeAttrs → Except VizError (NodeColor × ℚ)
  | .place _ c d => .ok (c, d)
  | _ => .error .badCast

/-- Decidable test for the object variant. -/
def isObjectB : NodeAttrs → Bool
  | .object _ _ _ => true
  | _ => false

/-- A scene-graph node: identifier, owning layer id, attributes. -/
structure Node where
  id : ℕ
  layer : ℕ
  attrs : NodeAttrs
deriving DecidableEq

/-- An edge as stored by the graph: source and target node identifiers. -/
structure Edge where
  source : ℕ
  target : ℕ
deriving DecidableEq

/-- A scene-graph layer: identifier, nodes and intra-layer edges, in the
iteration order of the underlying containers. -/
structure Layer where
  id : ℕ
  nodes : List Node
  edges : List Edge
deriving DecidableEq

/-- The scene graph borrowed for one redraw pass: layers (in map
iteration order), inter-layer edges (in traversal order), and the
externally-supplied mesh clouds keyed by node id
(DynamicSceneGraph::getMeshCloudForNode). -/
structure Graph where
  layers : List Layer
  inter_layer_edges : List Edge
  mesh_clouds : List (ℕ × List Point)
deriving DecidableEq

/-- SceneGraph::getNode: resolve a node id anywhere in the graph. -/
def Graph.getNode (g : Graph) (nid : ℕ) : Option Node :=
  g.layers.findSome? (fun l => l.nodes.find? (fun n => n.id == nid))

/-- Modelled from the spec: DynamicSceneGraph::empty() lives in the external
kimera_dsg library (not under src/); per section 7 an "empty" graph is one
with no content to draw, modelled as all layers having no nodes. -/
def graphEmpty (g : Graph) : Bool :=
  g.layers.all (fun l => l.nodes.isEmpty)

/-- Modelled from the spec: the numeric values of the external enum
KimeraDsgLayers are not under src/; only the identity of the objects and
places layers matters to the embedded code. -/
def OBJECTS : ℕ := 2

/-- Modelled from the spec: the places layer id of KimeraDsgLayers. -/
def PLACES : ℕ := 3

/-! ## Render configuration -/

/-- Per-layer render configuration (LayerConfig), the fields read by the
embedded code. -/
structure LayerConfig where
  visualize : Bool := true
  use_label : Bool := false
  use_bounding_box : Bool := false
  use_sphere_marker : Bool := false
  use_edge_source : Bool := true
  interlayer_edge_use_color : Bool := false
  marker_scale : ℚ := 1
  marker_alpha : ℚ := 1
  label_scale : ℚ := 1
  label_height : ℚ := 1
  bounding_box_alpha : ℚ := 1
  interlayer_edge_scale : ℚ := 1
  interlayer_edge_alpha : ℚ := 1
  intralayer_edge_scale : ℚ := 1
  intralayer_edge_alpha : ℚ := 1
  z_offset_scale : ℚ := 0
  interlayer_edge_insertion_skip : ℕ := 0
  intralayer_edge_insertion_skip : ℕ := 0
deriving DecidableEq

/-- A default LayerConfig used only to totalize lookups in specification
functions; the embedded code itself fails on a missing configuration. -/
def layerConfigDefault : LayerConfig := {}

/-- Global render configuration (VisualizerConfig), the fields read by the
embedded code.  mesh_edge_break_fraction embeds the source field
mesh_edge_break_ratio. -/
structure VisualizerConfig where
  collapse_layers : Bool := false
  color_places_by_distance : Bool := false
  layer_z_step : ℚ := 1
  mesh_layer_offset : ℚ := 0
  mesh_edge_break_fraction : ℚ := 0
  places_min_distance : ℚ := 0
  places_max_distance : ℚ := 1
  places_min_hue : ℚ := 0
  places_max_hue : ℚ := 1
  places_min_saturation : ℚ := 0
  places_max_saturation : ℚ := 1
  places_min_luminance : ℚ := 0
  places_max_luminance : ℚ := 1
deriving DecidableEq

/-- Modelled from the spec: getZOffset lives in visualizer_utils.h (not
under src/); per section 3 the vertical offset is the layer's offset scale
times the global step, zero when layers are collapsed to one plane. -/
def getZOffset (config : LayerConfig) (vc : VisualizerConfig) : ℚ :=
  if vc.collapse_layers then 0 else config.z_offset_scale * vc.layer_z_step

/-- Shift a point vertically, as the repeated `.z +=` statements do. -/
def withZ (p : Point) (dz : ℚ) : Point :=
  { p with z := p.z + dz }

/-- Componentwise difference, for the bounding-box extent max - min. -/
def pointSub (a b : Point) : Point :=
  ⟨a.x - b.x, a.y - b.y, a.z - b.z⟩

/-! ## Association lists modelling std::map -/

/-- std::map::find / count: first value stored under a key. -/
def alistFind {α : Type} : List (ℕ × α) → ℕ → Option α
  | [], _ => none
  | (k, v) :: rest, k' => if k' = k then some v else alistFind rest k'

/-- std::map insertion/assignment, keeping keys in increasing order as the
iteration order of std::map does. -/
def alistInsert {α : Type} : List (ℕ × α) → ℕ → α → List (ℕ × α)
  | [], k, v => [(k, v)]
  | (k0, v0) :: rest, k, v =>
    if k < k0 then (k, v) :: (k0, v0) :: rest
    else if k = k0 then (k, v) :: rest
    else (k0, v0) :: alistInsert rest k v

theorem alistFind_insert_self {α : Type} (l : List (ℕ × α)) (k : ℕ) (v : α) :
    alistFind (alistInsert l k v) k = some v := by
  induction l with
  | nil => simp [alistInsert, alistFind]
  | cons p rest ih =>
    obtain ⟨k0, v0⟩ := p
    by_cases h1 : k < k0
    · simp [alistInsert, alistFind, h1]
    · by_cases h2 : k = k0
      · simp [alistInsert, alistFind, h1, h2]
      · simp [alistInsert, alistFind, h1, h2, ih]

theorem alistFind_insert_ne {α : Type} (l : List (ℕ × α)) (k k' : ℕ) (v : α)
    (h : k' ≠ k) : alistFind (alistInsert l k v) k' = alistFind l k' := by
  induction l with
  | nil => simp [alistInsert, alistFind, h]
  | cons p rest ih =>
    obtain ⟨k0, v0⟩ := p
    by_cases h1 : k < k0
    · simp only [alistInsert, if_pos h1, alistFind, if_neg h]
    · by_cases h2 : k = k0
      · subst h2
        simp [alistInsert, alistFind, h1, h]
      · by_cases h3 : k' = k0
        · simp [alistInsert, alistFind, h1, h2, h3]
        · simp [alistInsert, alistFind, h1, h2, h3, ih]

/-- Keys of an association list are pairwise increasing. -/
def alistSorted {α : Type} (l : List (ℕ × α)) : Prop :=
  List.Pairwise (fun a b => a.1 < b.1) l

theorem alistInsert_mem {α : Type} (l : List (ℕ × α)) (k : ℕ) (v : α) :
    ∀ p ∈ alistInsert l k v, p = (k, v) ∨ p ∈ l := by
  induction l with
  | nil =>
    intro p hp
    simp [alistInsert] at hp
    exact Or.inl hp
  | cons q rest ih =>
    obtain ⟨k0, v0⟩ := q
    intro p hp
    rw [alistInsert] at hp
    by_cases h1 : k < k0
    · simp only [if_pos h1] at hp
      rcases List.mem_cons.mp hp with hm | hm
      · exact Or.inl hm
      · exact Or.inr hm
    · by_cases h2 : k = k0
      · simp only [if_neg h1, if_pos h2] at hp
        rcases List.mem_cons.mp hp with hm | hm
        · exact Or.inl hm
        · exact Or.inr (List.mem_cons_of_mem _ hm)
      · simp only [if_neg h1, if_neg h2] at hp
        rcases List.mem_cons.mp hp with hm | hm
        · exact Or.inr (by simp [hm])
        · rcases ih p hm with h | h
          · exact Or.inl h
          · exact Or.inr (List.mem_cons_of_mem _ h)

theorem alistInsert_sorted {α : Type} (l : List (ℕ × α)) (k : ℕ) (v : α)
    (h : alistSorted l) : alistSorted (alistInsert l k v) := by
  induction l with
  | nil => simp [alistInsert, alistSorted]
  | cons q rest ih =>
    obtain ⟨k0, v0⟩ := q
    rw [alistSorted, List.pairwise_cons] at h
    obtain ⟨h0, hrest⟩ := h
    by_cases h1 : k < k0
    · rw [alistInsert]
      simp only [if_pos h1]
      rw [alistSorted, List.pairwise_cons]
      refine ⟨?_, List.Pairwise.cons h0 hrest⟩
      intro b hb
      rcases List.mem_cons.mp hb with hm | hm
      · simp [hm]
        exact h1
      · exact lt_trans h1 (h0 b hm)
    · by_cases h2 : k = k0
      · subst h2
        rw [alistInsert, if_neg h1, if_pos rfl]
        rw [alistSorted, List.pairwise_cons]
        exact ⟨h0, hrest⟩
      · rw [alistInsert]
        simp only [if_neg h1, if_neg h2]
        rw [alistSorted, List.pairwise_cons]
        refine ⟨?_, ih hrest⟩
        intro b hb
        rcases alistInsert_mem rest k v b hb with hm | hm
        · simp [hm]
          omega
        · exact h0 b hm

theorem alistFind_of_mem {α : Type} (l : List (ℕ × α)) (k : ℕ) (v : α)
    (hs : alistSorted l) (hm : (k, v) ∈ l) : alistFind l k = some v := by
  induction l with
  | nil => simp at hm
  | cons q rest ih =>
    obtain ⟨k0, v0⟩ := q
    rw [alistSorted, List.pairwise_cons] at hs
    rcases List.mem_cons.mp hm with h | h
    · rw [alistFind]
      simp only [Prod.mk.injEq] at h
      simp [h.1, h.2]
    · have hlt : k0 < k := by
        have := hs.1 (k, v) h
        simpa using this
      rw [alistFind]
      have hne : ¬(k = k0) := by omega
      simp only [if_neg hne]
      exact ih hs.2 h

/-! ## Markers (the primitive descriptions sent to the renderer) -/

/-- visualization_msgs::Marker type tags used by the embedded code;
ARROW is the ROS default (type 0). -/
inductive MarkerType where
  | ARROW
  | CUBE
  | SPHERE_LIST
  | CUBE_LIST
  | TEXT_VIEW_FACING
  | LINE_LIST
deriving DecidableEq

/-- visualization_msgs::Marker actions; ADD is the ROS default (0). -/
inductive MarkerAction where
  | ADD
  | DELETE
  | DELETEALL
deriving DecidableEq

/-- An RGBA color message; dsg_utils::makeColorMsg is external, so the
conversion is modelled as pairing the color with the alpha. -/
structure ColorMsg where
  rgb : NodeColor
  alpha : ℚ
deriving DecidableEq

/-- Modelled from the spec: dsg_utils::makeColorMsg lives in the external
kimera_dsg library (not under src/); it converts a NodeColor plus alpha
into a color message, kept here as an injective pairing. -/
def makeColorMsg (c : NodeColor) (alpha : ℚ) : ColorMsg := ⟨c, alpha⟩

/-- makeColorMsg with the default alpha of 1 (single-argument call sites). -/
def makeColorMsg1 (c : NodeColor) : ColorMsg := makeColorMsg c 1

/-- A visualization_msgs::Marker restricted to the fields the embedded code
reads or writes; defaults are the ROS message defaults. -/
structure Marker where
  mtype : MarkerType := .ARROW
  action : MarkerAction := .ADD
  id : ℕ := 0
  ns : String := ""
  frame : String := ""
  stamp : ℕ := 0
  pos : Point := ⟨0, 0, 0⟩
  orientation : Quat := quatZero
  scale : Point := ⟨0, 0, 0⟩
  color : ColorMsg := ⟨⟨0, 0, 0⟩, 0⟩
  text : String := ""
  points : List Point := []
  colors : List ColorMsg := []
deriving DecidableEq

/-- A visualization_msgs::MarkerArray. -/
structure MarkerArray where
  markers : List Marker
deriving DecidableEq

/-- SceneGraphVisualizer::fillHeader (scene_graph_visualizer.cpp lines
114-118): stamp the marker and set its frame. -/
def fillHeader (frame : String) (stamp : ℕ) (m : Marker) : Marker :=
  { m with frame := frame, stamp := stamp }

/-- makeDeleteMarker (scene_graph_visualizer.cpp lines 120-126). -/
def makeDeleteMarker (mid : ℕ) (mns : String) : Marker :=
  { action := .DELETE, id := mid, ns := mns }

/-- getDeleteAllMarker (scene_graph_visualizer.cpp lines 252-259). -/
def getDeleteAllMarker : MarkerArray :=
  ⟨[{ action := .DELETEALL }]⟩

/-! ## Colormap engine -/

/-- The HLS colormap configuration passed to the external interpolation. -/
structure HlsColorMapConfig where
  min_hue : ℚ
  max_hue : ℚ
  min_saturation : ℚ
  max_saturation : ℚ
  min_luminance : ℚ
  max_luminance : ℚ
deriving DecidableEq

/-- Modelled from the spec: dsg_utils::interpolateColorMap lives in
colormap_utils (not under src/); per section 4.1 it interpolates hue,
saturation and luminance independently between the configured bounds at the
given ratio and converts to RGB.  The HLS-to-RGB conversion is external, so
the interpolated triple itself stands in for the color components; no
verified claim depends on its value. -/
def interpolateColorMap (cfg : HlsColorMapConfig) (r : ℚ) : NodeColor :=
  ⟨cfg.min_hue + r * (cfg.max_hue - cfg.min_hue),
   cfg.min_saturation + r * (cfg.max_saturation - cfg.min_saturation),
   cfg.min_luminance + r * (cfg.max_luminance - cfg.min_luminance)⟩

/-- Rational shadow of getRatio for the finite values reaching
getDistanceColor (in ℚ, division by zero yields 0, matching the
non-finite-to-0 replacement of the double version). -/
def getRatioQ (mn mx value : ℚ) : ℚ :=
  let r := (value - mn) / (mx - mn)
  if 1 < r then 1 else if r < 0 then 0 else r

/-- getDistanceColor (visualizer_utils.cpp lines 25-42). -/
def getDistanceColor (vc : VisualizerConfig) (distance : ℚ) : NodeColor :=
  if vc.places_max_distance ≤ vc.places_min_distance then ⟨0, 0, 0⟩
  else
    interpolateColorMap
      ⟨vc.places_min_hue, vc.places_max_hue, vc.places_min_saturation,
       vc.places_max_saturation, vc.places_min_luminance, vc.places_max_luminance⟩
      (getRatioQ vc.places_min_distance vc.places_max_distance distance)

/-! ## Primitive builders: bounding box, text, centroids -/

/-- makeBoundingBoxMarker (visualizer_utils.cpp lines 52-86): a CUBE marker
colored from the semantic color; OBB keeps the stored rotation, AABB uses
the identity rotation, an invalid type only logs and leaves the pose at its
default; extent is max - min. -/
def makeBoundingBoxMarker (config : LayerConfig) (node : Node)
    (vc : VisualizerConfig) (mns : String) : Except VizError Marker :=
  match attributesSemantic node.attrs with
  | .error e => .error e
  | .ok scol =>
    match attributesObject node.attrs with
    | .error e => .error e
    | .ok (_, bb) =>
      let base : Marker :=
        { mtype := .CUBE, action := .ADD, id := node.id, ns := mns,
          color := makeColorMsg scol config.bounding_box_alpha }
      let posed : Marker :=
        match bb.btype with
        | .OBB => { base with pos := withZ bb.world_P_center (getZOffset config vc),
                              orientation := bb.world_R_center }
        | .AABB => { base with pos := withZ bb.world_P_center (getZOffset config vc),
                               orientation := quatIdentity }
        | .INVALID => base
      .ok { posed with scale := pointSub bb.bmax bb.bmin }

/-- Modelled from the spec: NodeSymbol(id).getLabel() lives in the external
kimera_dsg library; the identifier is rendered as a human-readable symbol,
kept here as its decimal string. -/
def nodeSymbolLabel (nid : ℕ) : String := toString nid

/-- makeTextMarker (visualizer_utils.cpp lines 88-107). -/
def makeTextMarker (config : LayerConfig) (node : Node)
    (vc : VisualizerConfig) (mns : String) : Marker :=
  { ns := mns, id := node.id, mtype := .TEXT_VIEW_FACING, action := .ADD,
    text := nodeSymbolLabel node.id,
    scale := ⟨0, 0, config.label_scale⟩,
    color := makeColorMsg1 ⟨0, 0, 0⟩,
    orientation := quatIdentity,
    pos := withZ node.attrs.position (getZOffset config vc + config.label_height) }

/-- One step of the color resolution of makeCentroidMarkers
(visualizer_utils.cpp lines 137-154): the caller-supplied layer color wins;
a previously degraded batch keeps the sentinel; the places-distance branch
does an uncaught place-attributes cast; otherwise the semantic color is
looked up with bad_cast caught and turned into the sentinel plus the
degraded flag. -/
def centroidColorStep (vc : VisualizerConfig) (layer_id : ℕ)
    (layer_color : Option NodeColor) (valid : Bool) (attrs : NodeAttrs) :
    Except VizError (NodeColor × Bool) :=
  match layer_color with
  | some c => .ok (c, valid)
  | none =>
    if valid = false then .ok (sentinelRed, false)
    else if vc.color_places_by_distance && (layer_id == PLACES) then
      match attributesPlace attrs with
      | .error e => .error e
      | .ok (_, d) => .ok (getDistanceColor vc d, valid)
    else
      match attributesSemantic attrs with
      | .ok c => .ok (c, valid)
      | .error _ => .ok (sentinelRed, false)

/-- The node loop of makeCentroidMarkers (visualizer_utils.cpp lines
129-157): push the vertically offset centroid, then resolve the color. -/
def centroidLoop (config : LayerConfig) (vc : VisualizerConfig)
    (layer_id : ℕ) (layer_color : Option NodeColor) :
    List Node → Bool → List Point × List ColorMsg →
    Except VizError (List Point × List ColorMsg)
  | [], _, acc => .ok acc
  | n :: rest, valid, (pts, cols) =>
    match centroidColorStep vc layer_id layer_color valid n.attrs with
    | .error e => .error e
    | .ok (c, valid') =>
      centroidLoop config vc layer_id layer_color rest valid'
        (pts ++ [withZ n.attrs.position (getZOffset config vc)],
         cols ++ [makeColorMsg c config.marker_alpha])

/-- makeCentroidMarkers (visualizer_utils.cpp lines 109-160). -/
def makeCentroidMarkers (config : LayerConfig) (layer : Layer)
    (vc : VisualizerConfig) (layer_color : Option NodeColor) (mns : String) :
    Except VizError Marker :=
  match centroidLoop config vc layer.id layer_color layer.nodes true ([], []) with
  | .error e => .error e
  | .ok (pts, cols) =>
    .ok { mtype := if config.use_sphere_marker then .SPHERE_LIST else .CUBE_LIST,
          action := .ADD, id := layer.id, ns := mns,
          scale := ⟨config.marker_scale, config.marker_scale, config.marker_scale⟩,
          pos := ⟨0, 0, 0⟩, orientation := quatIdentity,
          points := pts, colors := cols }

/-! ## Inter-layer edge builder (makeGraphEdgeMarkers) -/

/-- makeNewEdgeList (visualizer_utils.cpp lines 164-177). -/
def makeNewEdgeList (config : LayerConfig) (layer_id : ℕ) : Marker :=
  { mtype := .LINE_LIST,
    action := if config.visualize then .ADD else .DELETE,
    id := layer_id, ns := "graph_edges",
    scale := ⟨config.interlayer_edge_scale, 0, 0⟩,
    pos := ⟨0, 0, 0⟩, orientation := quatIdentity }

/-- The per-source-layer builder state of makeGraphEdgeMarkers: the marker
map and the skip counters (visualizer_utils.cpp lines 185-186). -/
structure GEMState where
  layer_markers : List (ℕ × Marker)
  num_since : List (ℕ × ℕ)

/-- The first-seen-edge block of makeGraphEdgeMarkers (visualizer_utils.cpp
lines 194-202): create the marker for the source layer, demote it to DELETE
when the target layer of this first edge is not visualized, and zero the
skip counter. -/
def gemCreate (configs : List (ℕ × LayerConfig)) (source target : Node)
    (st : GEMState) : Except VizError GEMState :=
  if (alistFind st.layer_markers source.layer).isSome then .ok st
  else
    match alistFind configs source.layer with
    | none => .error .missingConfig
    | some cs =>
      match alistFind configs target.layer with
      | none => .error .missingConfig
      | some ct =>
        let m0 := makeNewEdgeList cs source.layer
        let m := if ct.visualize then m0 else { m0 with action := .DELETE }
        .ok ⟨alistInsert st.layer_markers source.layer m,
             alistInsert st.num_since source.layer 0⟩

/-- The edge color of makeGraphEdgeMarkers (visualizer_utils.cpp lines
232-243): source or target semantic color per the per-layer flags (an
unguarded cast), or black when edge coloring is off. -/
def edgeColor (cs : LayerConfig) (source target : Node) :
    Except VizError NodeColor :=
  if cs.interlayer_edge_use_color then
    if cs.use_edge_source then attributesSemantic source.attrs
    else attributesSemantic target.attrs
  else .ok ⟨0, 0, 0⟩

/-- The skip-counter block of makeGraphEdgeMarkers (visualizer_utils.cpp
lines 212-248): a counter at or past the configured skip draws the edge
(resetting the counter, appending the two offset endpoints and two copies
of the edge color, with intralayer_edge_alpha as in the source); otherwise
the counter is incremented and the edge dropped. -/
def gemDraw (configs : List (ℕ × LayerConfig)) (vc : VisualizerConfig)
    (source target : Node) (cs ct : LayerConfig) (st1 : GEMState) :
    Except VizError GEMState :=
  let cnt := (alistFind st1.num_since source.layer).getD 0
  if cs.interlayer_edge_insertion_skip ≤ cnt then
    match alistFind st1.layer_markers source.layer with
    | none => .error .badNode
    | some m =>
      match edgeColor cs source target with
      | .error err => .error err
      | .ok col =>
        let sp := withZ source.attrs.position (getZOffset cs vc)
        let tp := withZ target.attrs.position (getZOffset ct vc)
        let cmsg := makeColorMsg col cs.intralayer_edge_alpha
        .ok ⟨alistInsert st1.layer_markers source.layer
               { m with points := m.points ++ [sp, tp],
                        colors := m.colors ++ [cmsg, cmsg] },
             alistInsert st1.num_since source.layer 0⟩
  else
    .ok { st1 with
            num_since := alistInsert st1.num_since source.layer (cnt + 1) }

/-- The visibility checks of makeGraphEdgeMarkers (visualizer_utils.cpp
lines 204-210): the edge is dropped unless both endpoint layers are marked
visualize. -/
def gemProcess (configs : List (ℕ × LayerConfig)) (vc : VisualizerConfig)
    (source target : Node) (st1 : GEMState) : Except VizError GEMState :=
  match alistFind configs source.layer with
  | none => .error .missingConfig
  | some cs =>
    if cs.visualize = false then .ok st1
    else
      match alistFind configs target.layer with
      | none => .error .missingConfig
      | some ct =>
        if ct.visualize = false then .ok st1
        else gemDraw configs vc source target cs ct st1

/-- One edge of the makeGraphEdgeMarkers loop (visualizer_utils.cpp lines
188-249): resolve both endpoints (dereferencing an unresolvable handle
fails), run the creation block, then the visibility and skip-counter
logic. -/
def gemStep (g : Graph) (configs : List (ℕ × LayerConfig))
    (vc : VisualizerConfig) (st : GEMState) (e : Edge) :
    Except VizError GEMState :=
  match g.getNode e.source, g.getNode e.target with
  | some source, some target =>
    match gemCreate configs source target st with
    | .error err => .error err
    | .ok st1 => gemProcess configs vc source target st1
  | _, _ => .error .badNode

/-- The edge loop of makeGraphEdgeMarkers. -/
def gemLoop (g : Graph) (configs : List (ℕ × LayerConfig))
    (vc : VisualizerConfig) : GEMState → List Edge → Except VizError GEMState
  | st, [] => .ok st
  | st, e :: rest =>
    match gemStep g configs vc st e with
    | .error err => .error err
    | .ok st' => gemLoop g configs vc st' rest

/-- makeGraphEdgeMarkers (visualizer_utils.cpp lines 181-255): run the loop
over all inter-layer edges and emit the per-source-layer markers in key
order (std::map iteration order). -/
def makeGraphEdgeMarkers (g : Graph) (configs : List (ℕ × LayerConfig))
    (vc : VisualizerConfig) : Except VizError MarkerArray :=
  match gemLoop g configs vc ⟨[], []⟩ g.inter_layer_edges with
  | .error err => .error err
  | .ok st => .ok ⟨st.layer_markers.map Prod.snd⟩

/-! ## Mesh edge builder (makeMeshEdgesMarker) -/

/-- The mesh vertex down-sampling of visualizer_utils.cpp lines 302-303:
indices 0, k, 2k, ... of the cloud, with k = skip + 1. -/
def sampleStride (k : ℕ) (l : List Point) : List Point :=
  (l.enum.filter (fun p => p.1 % k == 0)).map Prod.snd

/-- The vertex offset of visualizer_utils.cpp lines 308-310. -/
def meshVertexAdjust (vc : VisualizerConfig) (p : Point) : Point :=
  if vc.collapse_layers then p else { p with z := p.z + vc.mesh_layer_offset }

/-- The duplicated color entries of visualizer_utils.cpp lines 292-300. -/
def meshColorPair (config : LayerConfig) (c : NodeColor) : List ColorMsg :=
  if config.interlayer_edge_use_color then
    [makeColorMsg c config.interlayer_edge_alpha,
     makeColorMsg c config.interlayer_edge_alpha]
  else
    [makeColorMsg ⟨0, 0, 0⟩ config.interlayer_edge_alpha,
     makeColorMsg ⟨0, 0, 0⟩ config.interlayer_edge_alpha]

/-- The node loop of makeMeshEdgesMarker (visualizer_utils.cpp lines
271-327): nodes without (or with empty) mesh clouds are skipped; the
semantic-attributes cast on line 278 is unguarded and can fail. -/
def meshEdgesLoop (config : LayerConfig) (vc : VisualizerConfig) (g : Graph) :
    List Node → List Point × List ColorMsg →
    Except VizError (List Point × List ColorMsg)
  | [], acc => .ok acc
  | n :: rest, (pts, cols) =>
    match alistFind g.mesh_clouds n.id with
    | none => meshEdgesLoop config vc g rest (pts, cols)
    | some mesh_points =>
      if mesh_points.length == 0 then meshEdgesLoop config vc g rest (pts, cols)
      else
        match attributesSemantic n.attrs with
        | .error e => .error e
        | .ok c =>
          let center := withZ n.attrs.position
            (vc.mesh_edge_break_fraction * getZOffset config vc)
          let centroid := withZ n.attrs.position (getZOffset config vc)
          let samples := sampleStride (config.interlayer_edge_insertion_skip + 1)
            mesh_points
          meshEdgesLoop config vc g rest
            (pts ++ [centroid, center]
               ++ samples.flatMap (fun v => [center, meshVertexAdjust vc v]),
             cols ++ meshColorPair config c
               ++ samples.flatMap (fun _ => meshColorPair config c))

/-- makeMeshEdgesMarker (visualizer_utils.cpp lines 257-330). -/
def makeMeshEdgesMarker (config : LayerConfig) (vc : VisualizerConfig)
    (g : Graph) (layer : Layer) (mns : String) : Except VizError Marker :=
  match meshEdgesLoop config vc g layer.nodes ([], []) with
  | .error e => .error e
  | .ok (pts, cols) =>
    .ok { mtype := .LINE_LIST, action := .ADD, id := layer.id, ns := mns,
          scale := ⟨config.interlayer_edge_scale, 0, 0⟩,
          pos := ⟨0, 0, 0⟩, orientation := quatIdentity,
          points := pts, colors := cols }

/-! ## Intra-layer edge builder (makeLayerEdgeMarkers) -/

/-- SceneGraphLayer::getPosition: resolve a node id inside the layer; an
unresolvable endpoint fails (the external accessor throws). -/
def layerGetPosition (layer : Layer) (nid : ℕ) : Except VizError Point :=
  match layer.nodes.find? (fun n => n.id == nid) with
  | some n => .ok n.attrs.position
  | none => .error .badNode

/-- The edge loop of makeLayerEdgeMarkers (visualizer_utils.cpp lines
351-364): draw the current edge then advance the iterator by skip + 1. -/
def layerEdgeLoop (config : LayerConfig) (vc : VisualizerConfig)
    (layer : Layer) : List Edge → List Point → Except VizError (List Point)
  | [], acc => .ok acc
  | e :: rest, acc =>
    match layerGetPosition layer e.source, layerGetPosition layer e.target with
    | .ok sp, .ok tp =>
      layerEdgeLoop config vc layer (rest.drop config.intralayer_edge_insertion_skip)
        (acc ++ [withZ sp (getZOffset config vc), withZ tp (getZOffset config vc)])
    | .error err, _ => .error err
    | .ok _, .error err => .error err
termination_by l _ => l.length
decreasing_by
  simp only [List.length_drop, List.length_cons]
  omega

/-- makeLayerEdgeMarkers (visualizer_utils.cpp lines 332-367). -/
def makeLayerEdgeMarkers (config : LayerConfig) (layer : Layer)
    (vc : VisualizerConfig) (color : NodeColor) : Except VizError Marker :=
  let base : Marker :=
    { mtype := .LINE_LIST, id := 0,
      ns := "layer_" ++ toString layer.id ++ "_edges" }
  if config.visualize = false then .ok { base with action := .DELETE }
  else
    match layerEdgeLoop config vc layer layer.edges [] with
    | .error err => .error err
    | .ok pts =>
      .ok { base with
            action := .ADD,
            scale := ⟨config.intralayer_edge_scale, 0, 0⟩,
            color := makeColorMsg color config.intralayer_edge_alpha,
            orientation := quatIdentity, points := pts }

/-! ## The visualizer state and orchestrator (scene_graph_visualizer.cpp) -/

/-- The mutable state of SceneGraphVisualizer read by the embedded member
functions: the held graph reference, the dirty flag need_redraw_, the world
frame and the configuration maps. -/
structure VisState where
  scene_graph : Option Graph
  need_redraw : Bool
  world_frame : String
  visualizer_config : VisualizerConfig
  layer_configs : List (ℕ × LayerConfig)
deriving DecidableEq

/-- SceneGraphVisualizer::configUpdateCb (scene_graph_visualizer.cpp lines
75-78): store the new global config and arm the dirty flag. -/
def configUpdateCb (s : VisState) (c : VisualizerConfig) : VisState :=
  { s with visualizer_config := c, need_redraw := true }

/-- SceneGraphVisualizer::layerConfigUpdateCb (scene_graph_visualizer.cpp
lines 80-85). -/
def layerConfigUpdateCb (s : VisState) (lid : ℕ) (c : LayerConfig) : VisState :=
  { s with layer_configs := alistInsert s.layer_configs lid c,
           need_redraw := true }

/-- SceneGraphVisualizer::setGraph (scene_graph_visualizer.cpp lines
87-95): a null or empty graph is rejected with a warning and nothing
changes; otherwise the reference is replaced and the dirty flag armed. -/
def setGraph (s : VisState) (g : Option Graph) : VisState :=
  match g with
  | none => s
  | some gg =>
    if graphEmpty gg then s
    else { s with scene_graph := some gg, need_redraw := true }

/-- SceneGraphVisualizer::handleCentroids (scene_graph_visualizer.cpp lines
128-143), appending onto the running centroid batch. -/
def handleCentroids (config : LayerConfig) (vc : VisualizerConfig)
    (frame : String) (t : ℕ) (layer : Layer) (acc : List Marker) :
    Except VizError (List Marker) :=
  if config.visualize then
    match makeCentroidMarkers config layer vc none "layer_centroids" with
    | .error e => .error e
    | .ok m => .ok (acc ++ [fillHeader frame t m])
  else .ok (acc ++ [fillHeader frame t (makeDeleteMarker layer.id "layer_centroids")])

/-- The per-layer label namespace (scene_graph_visualizer.cpp line 170). -/
def labelNs (layer_id : ℕ) : String :=
  "layer_" ++ toString layer_id ++ "_text"

/-- SceneGraphVisualizer::handleLabels (scene_graph_visualizer.cpp lines
166-185). -/
def handleLabels (config : LayerConfig) (vc : VisualizerConfig)
    (frame : String) (t : ℕ) (layer : Layer) (acc : List Marker) : List Marker :=
  layer.nodes.foldl
    (fun a node =>
      if config.visualize && config.use_label then
        a ++ [fillHeader frame t (makeTextMarker config node vc (labelNs layer.id))]
      else
        a ++ [fillHeader frame t (makeDeleteMarker node.id (labelNs layer.id))])
    acc

/-- The per-layer bounding-box namespace (scene_graph_visualizer.cpp line
191). -/
def bbNs (layer_id : ℕ) : String :=
  "layer_" ++ toString layer_id ++ "_bounding_boxes"

/-- The node loop of SceneGraphVisualizer::handleBoundingBoxes
(scene_graph_visualizer.cpp lines 193-212): with boxes enabled, a failed
object-attributes check logs an error and RETURNS, ending the loop for the
whole layer; otherwise the box marker is appended; with boxes disabled a
per-node delete marker is appended. -/
def handleBBLoop (config : LayerConfig) (vc : VisualizerConfig)
    (frame : String) (t : ℕ) (mns : String) :
    List Node → List Marker → Except VizError (List Marker)
  | [], acc => .ok acc
  | node :: rest, acc =>
    if config.visualize && config.use_bounding_box then
      match attributesObject node.attrs with
      | .error _ => .ok acc
      | .ok _ =>
        match makeBoundingBoxMarker config node vc mns with
        | .error err => .error err
        | .ok m => handleBBLoop config vc frame t mns rest (acc ++ [fillHeader frame t m])
    else
      handleBBLoop config vc frame t mns rest
        (acc ++ [fillHeader frame t (makeDeleteMarker node.id mns)])

/-- SceneGraphVisualizer::handleBoundingBoxes (scene_graph_visualizer.cpp
lines 187-213). -/
def handleBoundingBoxes (config : LayerConfig) (vc : VisualizerConfig)
    (frame : String) (t : ℕ) (layer : Layer) (acc : List Marker) :
    Except VizError (List Marker) :=
  handleBBLoop config vc frame t (bbNs layer.id) layer.nodes acc

/-- SceneGraphVisualizer::handleMeshEdges (scene_graph_visualizer.cpp lines
145-164): only the objects layer contributes. -/
def handleMeshEdges (config : LayerConfig) (vc : VisualizerConfig)
    (frame : String) (t : ℕ) (g : Graph) (layer : Layer) (acc : List Marker) :
    Except VizError (List Marker) :=
  if layer.id ≠ OBJECTS then .ok acc
  else if config.visualize then
    match makeMeshEdgesMarker config vc g layer "mesh_layer_edges" with
    | .error e => .error e
    | .ok m => .ok (acc ++ [fillHeader frame t m])
  else .ok (acc ++ [fillHeader frame t (makeDeleteMarker layer.id "mesh_layer_edges")])

/-- The four marker accumulators of SceneGraphVisualizer::displayLayers
(scene_graph_visualizer.cpp lines 216-219); boxes mirrors the declared but
never-populated bounding_boxes array. -/
structure DLAcc where
  centroids : List Marker
  texts : List Marker
  meshes : List Marker
  boxes : List Marker
deriving DecidableEq

/-- The layer loop of SceneGraphVisualizer::displayLayers
(scene_graph_visualizer.cpp lines 223-236): layers without a configuration
are skipped with a warning; note that handleBoundingBoxes is handed the
TEXT accumulator (line 234), so box markers join the label batch and the
boxes accumulator is never touched. -/
def displayLayersLoop (s : VisState) (g : Graph) (t : ℕ) :
    List Layer → DLAcc → Except VizError DLAcc
  | [], acc => .ok acc
  | layer :: rest, acc =>
    match alistFind s.layer_configs layer.id with
    | none => displayLayersLoop s g t rest acc
    | some config =>
      match handleCentroids config s.visualizer_config s.world_frame t layer
          acc.centroids with
      | .error err => .error err
      | .ok cents =>
        let texts1 := handleLabels config s.visualizer_config s.world_frame t layer
          acc.texts
        match handleBoundingBoxes config s.visualizer_config s.world_frame t layer
            texts1 with
        | .error err => .error err
        | .ok texts2 =>
          match handleMeshEdges config s.visualizer_config s.world_frame t g layer
              acc.meshes with
          | .error err => .error err
          | .ok meshes1 =>
            displayLayersLoop s g t rest ⟨cents, texts2, meshes1, acc.boxes⟩

/-- What one displayLayers pass sends, per channel: `some` is a publish on
that channel, `none` means nothing was sent (scene_graph_visualizer.cpp
lines 238-249 guard each publish on non-emptiness). -/
structure LayerOut where
  centroid_msg : Option MarkerArray
  bounding_box_msg : Option MarkerArray
  text_msg : Option MarkerArray
  mesh_msg : Option MarkerArray
deriving DecidableEq

/-- The publish-if-nonempty guard of scene_graph_visualizer.cpp lines
238-249. -/
def publishNonempty (l : List Marker) : Option MarkerArray :=
  if l.isEmpty then none else some ⟨l⟩

/-- SceneGraphVisualizer::displayLayers (scene_graph_visualizer.cpp lines
215-250). -/
def displayLayers (s : VisState) (g : Graph) (t : ℕ) :
    Except VizError LayerOut :=
  match displayLayersLoop s g t g.layers ⟨[], [], [], []⟩ with
  | .error err => .error err
  | .ok acc =>
    .ok ⟨publishNonempty acc.centroids, publishNonempty acc.boxes,
         publishNonempty acc.texts, publishNonempty acc.meshes⟩

/-- The per-layer loop of SceneGraphVisualizer::displayEdges
(scene_graph_visualizer.cpp lines 304-319): empty layers and layers without
a configuration are skipped, others append their intra-layer edge marker. -/
def displayEdgesLoop (s : VisState) (t : ℕ) :
    List Layer → List Marker → Except VizError (List Marker)
  | [], acc => .ok acc
  | layer :: rest, acc =>
    if layer.edges.length == 0 then displayEdgesLoop s t rest acc
    else
      match alistFind s.layer_configs layer.id with
      | none => displayEdgesLoop s t rest acc
      | some config =>
        match makeLayerEdgeMarkers config layer s.visualizer_config ⟨0, 0, 0⟩ with
        | .error err => .error err
        | .ok m => displayEdgesLoop s t rest (acc ++ [fillHeader s.world_frame t m])

/-- SceneGraphVisualizer::displayEdges (scene_graph_visualizer.cpp lines
295-322).  The returned array IS the message published on the
node-to-node edge channel: line 321 publishes unconditionally, with no
non-emptiness guard. -/
def displayEdges (s : VisState) (g : Graph) (t : ℕ) :
    Except VizError MarkerArray :=
  match makeGraphEdgeMarkers g s.layer_configs s.visualizer_config with
  | .error err => .error err
  | .ok ema =>
    match displayEdgesLoop s t g.layers (ema.markers.map (fillHeader s.world_frame t)) with
    | .error err => .error err
    | .ok ms => .ok ⟨ms⟩

/-- Everything one full redraw pass transmits: the guarded per-channel
layer messages and the unconditionally published node-to-node edge
message. -/
structure PassOut where
  layers_out : LayerOut
  edges_msg : MarkerArray
deriving DecidableEq

/-- SceneGraphVisualizer::redraw (scene_graph_visualizer.cpp lines 99-112):
no graph or a clean flag is a no-op returning false; otherwise the flag is
cleared and one displayLayers plus displayEdges pass runs.  The returned
option is what the pass transmitted (none for a no-op). -/
def redraw (s : VisState) (t : ℕ) :
    Except VizError (VisState × Bool × Option PassOut) :=
  match s.scene_graph with
  | none => .ok (s, false, none)
  | some g =>
    if s.need_redraw = false then .ok (s, false, none)
    else
      match displayLayers { s with need_redraw := false } g t with
      | .error err => .error err
      | .ok lo =>
        match displayEdges { s with need_redraw := false } g t with
        | .error err => .error err
        | .ok em => .ok ({ s with need_redraw := false }, true, some ⟨lo, em⟩)

/-- SceneGraphVisualizer::displayLoop (scene_graph_visualizer.cpp line 97):
the scheduler tick just calls redraw; an error escaping here is an
exception reaching the scheduler. -/
def displayLoop (s : VisState) (t : ℕ) :
    Except VizError (VisState × Bool × Option PassOut) :=
  redraw s t

/-! ## C9: the graph-set boundary rejects null/empty graphs -/

/-- C9: every call to the graph-set operation with an absent (null) or
empty graph is rejected (with a C++-side warning) and changes no state at
all: the held graph reference, the dirty flag and every other field are
unchanged, and nothing is published, so the current render is not
cleared. -/
theorem c9_set_graph_rejects_empty :
    (∀ s : VisState, setGraph s none = s) ∧
      (∀ (s : VisState) (g : Graph), graphEmpty g = true →
        setGraph s (some g) = s) := by
  constructor
  · intro s
    rfl
  · intro s g hg
    simp [setGraph, hg]

/-- A quiescent visualizer state used by the C9 witness. -/
def c9State : VisState :=
  { scene_graph := none, need_redraw := false, world_frame := "world",
    visualizer_config := {}, layer_configs := [] }

/-- A graph whose single layer holds no nodes, hence empty. -/
def c9EmptyGraph : Graph := ⟨[⟨1, [], []⟩], [], []⟩

/-- C9 witness: setting an empty graph on a concrete state is a no-op. -/
theorem c9_set_graph_rejects_empty_witness :
    setGraph c9State (some c9EmptyGraph) = c9State :=
  c9_set_graph_rejects_empty.2 c9State c9EmptyGraph (by decide)

/-! ## C8: the redraw state machine -/

/-- C8: on a scheduler tick, a missing graph or a clean flag is a strict
no-op (state returned unchanged, nothing transmitted); a dirty flag with a
held graph runs exactly one displayLayers-plus-displayEdges orchestration
pass, transmits its output and clears the flag; a configuration-changed
event (global or per-layer) and a successful graph replacement each arm
the dirty flag. -/
theorem c8_redraw_state_machine :
    (∀ (s : VisState) (t : ℕ), s.scene_graph = none →
        redraw s t = Except.ok (s, false, none)) ∧
    (∀ (s : VisState) (t : ℕ), s.need_redraw = false →
        redraw s t = Except.ok (s, false, none)) ∧
    (∀ (s : VisState) (t : ℕ) (g : Graph) (lo : LayerOut) (em : MarkerArray),
        s.scene_graph = some g → s.need_redraw = true →
        displayLayers { s with need_redraw := false } g t = Except.ok lo →
        displayEdges { s with need_redraw := false } g t = Except.ok em →
        redraw s t = Except.ok ({ s with need_redraw := false }, true, some ⟨lo, em⟩)) ∧
    (∀ (s : VisState) (c : VisualizerConfig),
        (configUpdateCb s c).need_redraw = true) ∧
    (∀ (s : VisState) (lid : ℕ) (c : LayerConfig),
        (layerConfigUpdateCb s lid c).need_redraw = true) ∧
    (∀ (s : VisState) (g : Graph), graphEmpty g = false →
        (setGraph s (some g)).need_redraw = true) := by
  refine ⟨?_, ?_, ?_, ?_, ?_, ?_⟩
  · intro s t h
    simp [redraw, h]
  · intro s t h
    rcases hsc : s.scene_graph with _ | g <;> simp [redraw, hsc, h]
  · intro s t g lo em hsg hnr hdl hde
    simp only [hsg] at hdl hde
    simp [redraw, hsg, hnr, hdl, hde]
  · intro s c
    rfl
  · intro s lid c
    rfl
  · intro s g hg
    simp [setGraph, hg]

/-- A one-layer, one-semantic-node graph for the C8 witness. -/
def c8Graph : Graph :=
  ⟨[⟨1, [⟨10, 1, NodeAttrs.semantic ⟨0, 0, 0⟩ ⟨1, 2, 3⟩⟩], []⟩], [], []⟩

/-- A dirty state holding c8Graph with a configuration for its layer. -/
def c8State : VisState :=
  { scene_graph := some c8Graph, need_redraw := true, world_frame := "world",
    visualizer_config := {}, layer_configs := [(1, {})] }

/-- The layer-channel output of the witness pass. -/
def c8LayerOut : LayerOut :=
  (displayLayers { c8State with need_redraw := false } c8Graph 0).toOption.getD
    ⟨none, none, none, none⟩

/-- The node-edge-channel output of the witness pass. -/
def c8EdgesMsg : MarkerArray :=
  (displayEdges { c8State with need_redraw := false } c8Graph 0).toOption.getD ⟨[]⟩

/-- C8 witness: a tick on the concrete dirty state runs the pass, clears
the flag and transmits the pass output. -/
theorem c8_redraw_state_machine_witness :
    redraw c8State 0 =
      Except.ok ({ c8State with need_redraw := false }, true,
        some ⟨c8LayerOut, c8EdgesMsg⟩) :=
  c8_redraw_state_machine.2.2.1 c8State 0 c8Graph c8LayerOut c8EdgesMsg
    rfl rfl rfl rfl

/-! ## C4: per-channel transmission guards -/

theorem publishNonempty_some {l : List Marker} {a : MarkerArray}
    (h : publishNonempty l = some a) : a.markers = l ∧ l ≠ [] := by
  rw [publishNonempty] at h
  by_cases he : l.isEmpty
  · simp [he] at h
  · simp [he] at h
    subst h
    exact ⟨rfl, by simpa using he⟩

/-- C4 amended: the four layer-artifact channels (centroids, bounding
boxes, labels, mesh edges) transmit a batch only when it is non-empty;
delete-only non-empty batches ARE transmitted, and the node-to-node edge
channel publishes its batch unconditionally on every pass, even when
empty (see the counterexample). -/
theorem c4_amended (s : VisState) (g : Graph) (t : ℕ) (out : LayerOut)
    (h : displayLayers s g t = Except.ok out) :
    (∀ a, out.centroid_msg = some a → a.markers ≠ []) ∧
    (∀ a, out.bounding_box_msg = some a → a.markers ≠ []) ∧
    (∀ a, out.text_msg = some a → a.markers ≠ []) ∧
    (∀ a, out.mesh_msg = some a → a.markers ≠ []) := by
  unfold displayLayers at h
  rcases hl : displayLayersLoop s g t g.layers ⟨[], [], [], []⟩ with err | acc
  · rw [hl] at h
    cases h
  · rw [hl] at h
    cases h
    refine ⟨?_, ?_, ?_, ?_⟩ <;>
      · intro a ha
        have := publishNonempty_some ha
        rw [this.1]
        exact this.2

/-- A one-layer graph with one node and no edges at all. -/
def c4Graph : Graph :=
  ⟨[⟨1, [⟨10, 1, NodeAttrs.semantic ⟨0, 0, 0⟩ ⟨1, 2, 3⟩⟩], []⟩], [], []⟩

/-- A dirty state over c4Graph whose only layer has visualize = false. -/
def c4State : VisState :=
  { scene_graph := some c4Graph, need_redraw := true, world_frame := "world",
    visualizer_config := {}, layer_configs := [(1, { visualize := false })] }

/-- Projection of a tick result: the actions of the transmitted centroid
batch (if the pass ran and that channel was published). -/
def passCentroidActions (r : VisState × Bool × Option PassOut) :
    Option (Option (List MarkerAction)) :=
  r.2.2.map (fun o => o.layers_out.centroid_msg.map (fun a => a.markers.map Marker.action))

/-- Projection of a tick result: the size of the message transmitted on the
node-to-node edge channel (if the pass ran). -/
def passEdgeCount (r : VisState × Bool × Option PassOut) : Option ℕ :=
  r.2.2.map (fun o => o.edges_msg.markers.length)

/-- C4 counterexample: on a concrete pass the centroid channel transmits a
batch consisting only of a delete action (the claim says an only-deletes
batch sends nothing), and the node-to-node edge channel transmits an empty
message (the claim says an empty batch sends nothing on its channel). -/
theorem c4_counterexample :
    Except.map passCentroidActions (redraw c4State 0) =
        Except.ok (some (some [MarkerAction.DELETE])) ∧
      Except.map passEdgeCount (redraw c4State 0) = Except.ok (some 0) :=
  ⟨rfl, rfl⟩

/-- The centroid message transmitted by the c8 witness pass. -/
def c4wMsg : MarkerArray := c8LayerOut.centroid_msg.getD ⟨[]⟩

/-- C4 amended witness: the centroid batch transmitted on the concrete
pass is non-empty, by the theorem applied at that pass. -/
theorem c4_amended_witness : c4wMsg.markers ≠ [] :=
  (c4_amended { c8State with need_redraw := false } c8Graph 0 c8LayerOut rfl).1
    c4wMsg rfl

/-! ## Helper lemmas on the centroid and bounding-box builders -/

theorem placesCondFalse {vc : VisualizerConfig} {layer_id : ℕ}
    (hp : vc.color_places_by_distance = false ∨ layer_id ≠ PLACES) :
    (vc.color_places_by_distance && (layer_id == PLACES)) = false := by
  rcases hp with h | h
  · simp [h]
  · simp [h]

theorem centroidColorStep_ok (vc : VisualizerConfig) (layer_id : ℕ)
    (lc : Option NodeColor) (valid : Bool) (attrs : NodeAttrs)
    (hp : vc.color_places_by_distance = false ∨ layer_id ≠ PLACES) :
    ∃ r, centroidColorStep vc layer_id lc valid attrs = Except.ok r := by
  rcases lc with _ | c
  · by_cases hv : valid = false
    · refine ⟨(sentinelRed, false), ?_⟩
      simp [centroidColorStep, hv]
    · have hcond := placesCondFalse hp
      rcases hs : attributesSemantic attrs with e | c2
      · refine ⟨(sentinelRed, false), ?_⟩
        simp [centroidColorStep, hv, hcond, hs]
      · refine ⟨(c2, valid), ?_⟩
        simp [centroidColorStep, hv, hcond, hs]
  · exact ⟨(c, valid), by simp [centroidColorStep]⟩

theorem centroidLoop_ok (config : LayerConfig) (vc : VisualizerConfig)
    (layer_id : ℕ) (lc : Option NodeColor)
    (hp : vc.color_places_by_distance = false ∨ layer_id ≠ PLACES) :
    ∀ (nodes : List Node) (valid : Bool) (acc : List Point × List ColorMsg),
      ∃ r, centroidLoop config vc layer_id lc nodes valid acc = Except.ok r := by
  intro nodes
  induction nodes with
  | nil => exact fun valid acc => ⟨acc, rfl⟩
  | cons n rest ih =>
    intro valid acc
    obtain ⟨pts, cols⟩ := acc
    obtain ⟨⟨c, valid'⟩, hstep⟩ := centroidColorStep_ok vc layer_id lc valid n.attrs hp
    obtain ⟨r, hr⟩ := ih valid'
      (pts ++ [withZ n.attrs.position (getZOffset config vc)],
       cols ++ [makeColorMsg c config.marker_alpha])
    exact ⟨r, by simp only [centroidLoop, hstep]; exact hr⟩

theorem attributesObject_ok_of_isObject {attrs : NodeAttrs}
    (h : isObjectB attrs = true) :
    ∃ c bb, attributesObject attrs = Except.ok (c, bb) := by
  cases attrs with
  | object p c bb => exact ⟨c, bb, rfl⟩
  | base p => simp [isObjectB] at h
  | semantic p c => simp [isObjectB] at h
  | place p c d => simp [isObjectB] at h

theorem attributesObject_error_of_not_object {attrs : NodeAttrs}
    (h : isObjectB attrs = false) :
    attributesObject attrs = Except.error VizError.badCast := by
  cases attrs with
  | object p c bb => simp [isObjectB] at h
  | base p => rfl
  | semantic p c => rfl
  | place p c d => rfl

theorem isObjectB_of_attributesObject_ok {attrs : NodeAttrs}
    {x : NodeColor × BoundingBox} (h : attributesObject attrs = Except.ok x) :
    isObjectB attrs = true := by
  cases attrs with
  | object p c bb => rfl
  | base p => cases h
  | semantic p c => cases h
  | place p c d => cases h

theorem makeBoundingBoxMarker_ok (config : LayerConfig) (vc : VisualizerConfig)
    (mns : String) (node : Node) (h : isObjectB node.attrs = true) :
    ∃ m, makeBoundingBoxMarker config node vc mns = Except.ok m ∧
      m.id = node.id := by
  cases hn : node.attrs with
  | base p => rw [hn] at h; simp [isObjectB] at h
  | semantic p c => rw [hn] at h; simp [isObjectB] at h
  | place p c d => rw [hn] at h; simp [isObjectB] at h
  | object p c bb =>
    obtain ⟨bt, pc, rc, bn, bx⟩ := bb
    unfold makeBoundingBoxMarker
    rw [hn]
    cases bt <;> exact ⟨_, rfl, rfl⟩

theorem handleBBLoop_ok (config : LayerConfig) (vc : VisualizerConfig)
    (frame : String) (t : ℕ) (mns : String) :
    ∀ (nodes : List Node) (acc : List Marker),
      ∃ l, handleBBLoop config vc frame t mns nodes acc = Except.ok l := by
  intro nodes
  induction nodes with
  | nil => exact fun acc => ⟨acc, rfl⟩
  | cons n rest ih =>
    intro acc
    by_cases hf : (config.visualize && config.use_bounding_box) = true
    · rcases ho : attributesObject n.attrs with e | x
      · exact ⟨acc, by simp [handleBBLoop, hf, ho]⟩
      · obtain ⟨m, hm, _⟩ :=
          makeBoundingBoxMarker_ok config vc mns n (isObjectB_of_attributesObject_ok ho)
        obtain ⟨l, hl⟩ := ih (acc ++ [fillHeader frame t m])
        exact ⟨l, by simp only [handleBBLoop, hf, ho, hm, if_pos]; exact hl⟩
    · obtain ⟨l, hl⟩ := ih (acc ++ [fillHeader frame t (makeDeleteMarker n.id mns)])
      exact ⟨l, by simp only [handleBBLoop, hf]; simpa using hl⟩

theorem displayLayersLoop_skip (s : VisState) (g : Graph) (t : ℕ) :
    ∀ (layers : List Layer) (acc : DLAcc),
      (∀ layer ∈ layers, alistFind s.layer_configs layer.id = none) →
      displayLayersLoop s g t layers acc = Except.ok acc := by
  intro layers
  induction layers with
  | nil => exact fun acc _ => rfl
  | cons L rest ih =>
    intro acc h
    have hL := h L (List.mem_cons_self L rest)
    simp only [displayLayersLoop, hL]
    exact ih acc (fun l hl => h l (List.mem_cons_of_mem _ hl))

/-! ## C2: which failures are contained and which escape -/

/-- C2 amended: failure containment is partial.  Contained: an
attribute-kind mismatch in the centroid builder's semantic-color lookup
(whenever the places-distance branch is not taken the builder always
returns, degrading to the sentinel), an attribute-kind mismatch in the
bounding-box attribute check (the handler always returns, aborting the
layer), and a missing layer configuration in the orchestrator's per-layer
loop (the layer is skipped and the pass yields no output).  NOT contained
(see the counterexample): an attribute-kind mismatch in the
places-distance lookup — and likewise the unguarded casts and config/node
lookups of the edge builders — escapes as a raised exception to the
scheduler's tick. -/
theorem c2_amended :
    (∀ (config : LayerConfig) (layer : Layer) (vc : VisualizerConfig)
        (lc : Option NodeColor) (mns : String),
        vc.color_places_by_distance = false ∨ layer.id ≠ PLACES →
        ∃ m, makeCentroidMarkers config layer vc lc mns = Except.ok m) ∧
    (∀ (config : LayerConfig) (vc : VisualizerConfig) (frame : String)
        (t : ℕ) (mns : String) (nodes : List Node) (acc : List Marker),
        ∃ l, handleBBLoop config vc frame t mns nodes acc = Except.ok l) ∧
    (∀ (s : VisState) (g : Graph) (t : ℕ),
        (∀ layer ∈ g.layers, alistFind s.layer_configs layer.id = none) →
        displayLayers s g t = Except.ok ⟨none, none, none, none⟩) := by
  refine ⟨?_, ?_, ?_⟩
  · intro config layer vc lc mns hp
    obtain ⟨⟨pts, cols⟩, hr⟩ := centroidLoop_ok config vc layer.id lc hp layer.nodes true ([], [])
    exact ⟨_, by unfold makeCentroidMarkers; rw [hr]⟩
  · intro config vc frame t mns nodes acc
    exact handleBBLoop_ok config vc frame t mns nodes acc
  · intro s g t h
    unfold displayLayers
    rw [displayLayersLoop_skip s g t g.layers _ h]
    rfl

/-- A places-layer graph whose node has object (not place) attributes. -/
def c2Graph : Graph :=
  ⟨[⟨PLACES,
     [⟨20, PLACES,
       NodeAttrs.object ⟨0, 0, 0⟩ ⟨1, 2, 3⟩
         ⟨BBType.AABB, ⟨0, 0, 0⟩, quatZero, ⟨0, 0, 0⟩, ⟨1, 1, 1⟩⟩⟩],
     []⟩], [], []⟩

/-- A dirty state over c2Graph with distance coloring enabled. -/
def c2State : VisState :=
  { scene_graph := some c2Graph, need_redraw := true, world_frame := "world",
    visualizer_config := { color_places_by_distance := true },
    layer_configs := [(PLACES, {})] }

/-- C2 counterexample: on this concrete state the scheduler tick itself
evaluates to an escaped error — the attribute-kind mismatch raised inside
the centroid builder's places-distance lookup propagates out of the
builder, out of the orchestrator, and out of the tick, so not every
failure is handled at the builder or orchestrator boundary. -/
theorem c2_counterexample :
    displayLoop c2State 0 = Except.error VizError.badCast := rfl

/-- A layer holding a node with base attributes only (semantic cast
fails). -/
def c2wLayer : Layer := ⟨9, [⟨1, 9, NodeAttrs.base ⟨0, 0, 0⟩⟩], []⟩

/-- C2 amended witness: the centroid builder returns (no raise) on a layer
whose node lacks semantic attributes, with the places branch off. -/
theorem c2_amended_witness :
    ∃ m, makeCentroidMarkers {} c2wLayer {} none "layer_centroids" = Except.ok m :=
  c2_amended.1 {} c2wLayer {} none "layer_centroids" (Or.inl rfl)

/-! ## C1: bounding-box mismatch aborts the whole layer -/

/-- Config with bounding boxes enabled, for the C1 scenario. -/
def c1Cfg : LayerConfig := { visualize := true, use_bounding_box := true }

/-- A valid axis-aligned box. -/
def c1Box : BoundingBox := ⟨BBType.AABB, ⟨0, 0, 0⟩, quatZero, ⟨0, 0, 0⟩, ⟨1, 1, 1⟩⟩

/-- First sibling: valid object attributes. -/
def c1n1 : Node := ⟨1, 7, NodeAttrs.object ⟨0, 0, 0⟩ ⟨1, 2, 3⟩ c1Box⟩

/-- The offending node: semantic attributes only. -/
def c1n2 : Node := ⟨2, 7, NodeAttrs.semantic ⟨0, 0, 0⟩ ⟨1, 2, 3⟩⟩

/-- Last sibling: valid object attributes. -/
def c1n3 : Node := ⟨3, 7, NodeAttrs.object ⟨0, 0, 0⟩ ⟨1, 2, 3⟩ c1Box⟩

/-- C1 counterexample: with bounding boxes enabled on the layer
[c1n1, c1n2, c1n3] — where c1n2 has Semantic-only attributes and both
siblings have valid Object attributes — the bounding-box handler produces
a marker only for node 1: the sibling node 3 after the mismatch produces
no marker, so the mismatch is NOT fatal only to that single node and not
every valid sibling still renders. -/
theorem c1_counterexample :
    Except.map (List.map Marker.id)
        (handleBBLoop c1Cfg {} "world" 0 (bbNs 7) [c1n1, c1n2, c1n3] []) =
      Except.ok [1] := rfl

theorem handleBBLoop_abort (config : LayerConfig) (vc : VisualizerConfig)
    (frame : String) (t : ℕ) (mns : String) (bad : Node) (post : List Node)
    (hv : config.visualize = true) (hb : config.use_bounding_box = true)
    (hbad : isObjectB bad.attrs = false) :
    ∀ (pre : List Node) (acc : List Marker),
      (∀ n ∈ pre, isObjectB n.attrs = true) →
      ∃ l, handleBBLoop config vc frame t mns (pre ++ bad :: post) acc =
          Except.ok l ∧
        l.map Marker.id = acc.map Marker.id ++ pre.map Node.id := by
  intro pre
  induction pre with
  | nil =>
    intro acc _
    refine ⟨acc, ?_, by simp⟩
    simp [List.nil_append, handleBBLoop, hv, hb,
      attributesObject_error_of_not_object hbad]
  | cons n pre' ih =>
    intro acc hpre
    have hn := hpre n (List.mem_cons_self n pre')
    obtain ⟨c, bb, ho⟩ := attributesObject_ok_of_isObject hn
    obtain ⟨m, hm, hid⟩ := makeBoundingBoxMarker_ok config vc mns n hn
    obtain ⟨l, hl, hml⟩ := ih (acc ++ [fillHeader frame t m])
      (fun x hx => hpre x (List.mem_cons_of_mem _ hx))
    refine ⟨l, ?_, ?_⟩
    · simp only [List.cons_append, handleBBLoop, hv, hb, ho, hm]
      exact hl
    · rw [hml]
      simp [fillHeader, hid]

/-- C1 amended: with bounding boxes enabled, a node whose attributes are
not of the Object kind aborts bounding-box handling for the ENTIRE layer
(after a logged failure): every node before it in iteration order still
produces its bounding-box marker, while the offending node and every node
after it — including siblings with valid Object attributes — produce
nothing. -/
theorem c1_amended (config : LayerConfig) (vc : VisualizerConfig)
    (frame : String) (t : ℕ) (mns : String)
    (pre : List Node) (bad : Node) (post : List Node)
    (hv : config.visualize = true) (hb : config.use_bounding_box = true)
    (hpre : ∀ n ∈ pre, isObjectB n.attrs = true)
    (hbad : isObjectB bad.attrs = false) :
    ∃ l, handleBBLoop config vc frame t mns (pre ++ bad :: post) [] =
        Except.ok l ∧
      l.map Marker.id = pre.map Node.id := by
  obtain ⟨l, hl, hml⟩ :=
    handleBBLoop_abort config vc frame t mns bad post hv hb hbad pre [] hpre
  exact ⟨l, hl, by simpa using hml⟩

/-- C1 amended witness: on the concrete layer the handler emits exactly
the marker for the node before the mismatch. -/
theorem c1_amended_witness :
    ∃ l, handleBBLoop c1Cfg {} "world" 0 (bbNs 7) ([c1n1] ++ c1n2 :: [c1n3]) [] =
        Except.ok l ∧
      l.map Marker.id = [c1n1].map Node.id :=
  c1_amended c1Cfg {} "world" 0 (bbNs 7) [c1n1] c1n2 [c1n3] rfl rfl
    (by intro n hn; rcases List.mem_singleton.mp hn with h; rw [h]; rfl) rfl

/-! ## C5: degradation propagates through the centroid batch -/

theorem centroidLoop_degraded (config : LayerConfig) (vc : VisualizerConfig)
    (layer_id : ℕ) :
    ∀ (nodes : List Node) (pts : List Point) (cols : List ColorMsg),
      centroidLoop config vc layer_id none nodes false (pts, cols) =
        Except.ok
          (pts ++ nodes.map (fun n => withZ n.attrs.position (getZOffset config vc)),
           cols ++ nodes.map (fun _ => makeColorMsg sentinelRed config.marker_alpha)) := by
  intro nodes
  induction nodes with
  | nil => intro pts cols; simp [centroidLoop]
  | cons n rest ih =>
    intro pts cols
    simp [centroidLoop, centroidColorStep, ih, List.append_assoc]

theorem centroidLoop_degraded_all (config : LayerConfig) (vc : VisualizerConfig)
    (layer_id : ℕ) (nodes : List Node) (pts : List Point) (cols : List ColorMsg) :
    ∃ pts' cols',
      centroidLoop config vc layer_id none nodes false (pts, cols) =
        Except.ok (pts', cols') ∧
      cols'.length = cols.length + nodes.length ∧
      ∀ k, k < nodes.length →
        cols'[cols.length + k]? =
          some (makeColorMsg sentinelRed config.marker_alpha) := by
  refine ⟨_, _, centroidLoop_degraded config vc layer_id nodes pts cols,
    by simp, ?_⟩
  intro k hk
  rw [List.getElem?_append_right (by omega)]
  have hidxeq : cols.length + k - cols.length = k := by omega
  rw [hidxeq, List.getElem?_eq_getElem (by simpa using hk)]
  simp

theorem centroidLoop_bad (config : LayerConfig) (vc : VisualizerConfig)
    (layer_id : ℕ)
    (hp : vc.color_places_by_distance = false ∨ layer_id ≠ PLACES) :
    ∀ (nodes : List Node) (j : ℕ) (valid : Bool)
      (pts : List Point) (cols : List ColorMsg),
      j < nodes.length →
      (valid = false ∨ ∃ nd, nodes[j]? = some nd ∧
          attributesSemantic nd.attrs = Except.error VizError.badCast) →
      ∃ pts' cols',
        centroidLoop config vc layer_id none nodes valid (pts, cols) =
          Except.ok (pts', cols') ∧
        cols'.length = cols.length + nodes.length ∧
        ∀ k, j ≤ k → k < nodes.length →
          cols'[cols.length + k]? =
            some (makeColorMsg sentinelRed config.marker_alpha) := by
  intro nodes
  induction nodes with
  | nil =>
    intro j valid pts cols hj _
    simp at hj
  | cons n rest ih =>
    intro j valid pts cols hj hstart
    by_cases hv : valid = false
    · subst hv
      obtain ⟨pts', cols', heq, hlen, hidx⟩ :=
        centroidLoop_degraded_all config vc layer_id (n :: rest) pts cols
      exact ⟨pts', cols', heq, hlen, fun k _ hk2 => hidx k hk2⟩
    · have hvt : valid = true := by
        cases valid
        · exact absurd rfl hv
        · rfl
      subst hvt
      rcases hstart with h | ⟨nd, hnd, hsem⟩
      · cases h
      have hcond := placesCondFalse hp
      rcases hsem2 : attributesSemantic n.attrs with e | c
      · -- the head itself fails: the step equals the degraded step
        have hfull : centroidLoop config vc layer_id none (n :: rest) true (pts, cols)
            = centroidLoop config vc layer_id none (n :: rest) false (pts, cols) := by
          simp [centroidLoop, centroidColorStep, hcond, hsem2]
        obtain ⟨pts', cols', heq, hlen, hidx⟩ :=
          centroidLoop_degraded_all config vc layer_id (n :: rest) pts cols
        exact ⟨pts', cols', by rw [hfull]; exact heq, hlen,
          fun k _ hk2 => hidx k hk2⟩
      · -- the head succeeds: the failing node is strictly later
        cases j with
        | zero =>
          rw [List.getElem?_cons_zero] at hnd
          cases hnd
          rw [hsem2] at hsem
          cases hsem
        | succ jj =>
          rw [List.getElem?_cons_succ] at hnd
          obtain ⟨pts', cols', heq, hlen, hidx⟩ := ih jj true
            (pts ++ [withZ n.attrs.position (getZOffset config vc)])
            (cols ++ [makeColorMsg c config.marker_alpha])
            (by simpa using hj) (Or.inr ⟨nd, hnd, hsem⟩)
          refine ⟨pts', cols', ?_, by simp at hlen ⊢; omega, ?_⟩
          · have hstep : centroidLoop config vc layer_id none (n :: rest) true (pts, cols)
                = centroidLoop config vc layer_id none rest true
                    (pts ++ [withZ n.attrs.position (getZOffset config vc)],
                     cols ++ [makeColorMsg c config.marker_alpha]) := by
              simp [centroidLoop, centroidColorStep, hcond, hsem2]
            rw [hstep]
            exact heq
          · intro k hk1 hk2
            have harith : cols.length + k = (cols.length + 1) + (k - 1) := by omega
            rw [harith]
            have := hidx (k - 1) (by omega) (by simp at hk2 ⊢; omega)
            simpa using this

/-- C5: in the centroid builder (no caller-supplied layer color, places
branch not taken), when the semantic-color lookup of the j-th node fails
with an attribute-kind mismatch, the builder still returns a batch (no
exception escapes), and that node and EVERY subsequent node of the batch
receive the sentinel red — degradation propagates through the batch. -/
theorem c5_centroid_degradation (config : LayerConfig) (layer : Layer)
    (vc : VisualizerConfig) (mns : String) (j : ℕ)
    (hp : vc.color_places_by_distance = false ∨ layer.id ≠ PLACES)
    (hj : j < layer.nodes.length)
    (hbad : ∃ nd, layer.nodes[j]? = some nd ∧
      attributesSemantic nd.attrs = Except.error VizError.badCast) :
    ∃ m, makeCentroidMarkers config layer vc none mns = Except.ok m ∧
      m.colors.length = layer.nodes.length ∧
      ∀ k, j ≤ k → k < layer.nodes.length →
        m.colors[k]? = some (makeColorMsg sentinelRed config.marker_alpha) := by
  obtain ⟨pts', cols', heq, hlen, hidx⟩ :=
    centroidLoop_bad config vc layer.id hp layer.nodes j true [] [] hj (Or.inr hbad)
  refine ⟨{ mtype := if config.use_sphere_marker then .SPHERE_LIST else .CUBE_LIST,
            action := .ADD, id := layer.id, ns := mns,
            scale := ⟨config.marker_scale, config.marker_scale, config.marker_scale⟩,
            pos := ⟨0, 0, 0⟩, orientation := quatIdentity,
            points := pts', colors := cols' }, ?_, ?_, ?_⟩
  · unfold makeCentroidMarkers
    rw [heq]
  · simpa using hlen
  · intro k hk1 hk2
    simpa using hidx k hk1 hk2

/-- A layer whose middle node has base-only attributes. -/
def c5Layer : Layer :=
  ⟨9, [⟨1, 9, NodeAttrs.semantic ⟨0, 0, 0⟩ ⟨0, 1, 0⟩⟩,
       ⟨2, 9, NodeAttrs.base ⟨0, 0, 0⟩⟩,
       ⟨3, 9, NodeAttrs.semantic ⟨0, 0, 0⟩ ⟨0, 0, 1⟩⟩], []⟩

/-- C5 witness: on the concrete layer (failure at index 1) the builder
returns and colors 1 and 2 are the sentinel. -/
theorem c5_centroid_degradation_witness :
    ∃ m, makeCentroidMarkers {} c5Layer {} none "layer_centroids" = Except.ok m ∧
      m.colors.length = c5Layer.nodes.length ∧
      ∀ k, 1 ≤ k → k < c5Layer.nodes.length →
        m.colors[k]? =
          some (makeColorMsg sentinelRed ({} : LayerConfig).marker_alpha) :=
  c5_centroid_degradation {} c5Layer {} "layer_centroids" 1 (Or.inl rfl)
    (by decide) ⟨⟨2, 9, NodeAttrs.base ⟨0, 0, 0⟩⟩, rfl, rfl⟩

/-! ## C10: bounding boxes ride the label channel -/

theorem foldl_append_mem {α β : Type} (f : List β → α → List β)
    (hf : ∀ (a : List β) (x : α), ∀ b ∈ a, b ∈ f a x) :
    ∀ (l : List α) (acc : List β) (b : β), b ∈ acc → b ∈ List.foldl f acc l := by
  intro l
  induction l with
  | nil =>
    intro acc b hb
    simpa using hb
  | cons x rest ih =>
    intro acc b hb
    exact ih (f acc x) b (hf acc x b hb)

theorem handleLabels_mem (config : LayerConfig) (vc : VisualizerConfig)
    (frame : String) (t : ℕ) (layer : Layer) (acc : List Marker)
    (m : Marker) (hm : m ∈ acc) :
    m ∈ handleLabels config vc frame t layer acc := by
  unfold handleLabels
  refine foldl_append_mem _ ?_ layer.nodes acc m hm
  intro a x b hb
  by_cases hc : (config.visualize && config.use_label) = true <;>
    simp [hc, List.mem_append, hb]

theorem handleBBLoop_mem (config : LayerConfig) (vc : VisualizerConfig)
    (frame : String) (t : ℕ) (mns : String) :
    ∀ (nodes : List Node) (acc l : List Marker),
      handleBBLoop config vc frame t mns nodes acc = Except.ok l →
      ∀ m ∈ acc, m ∈ l := by
  intro nodes
  induction nodes with
  | nil =>
    intro acc l h m hm
    cases h
    exact hm
  | cons n rest ih =>
    intro acc l h m hm
    by_cases hf : (config.visualize && config.use_bounding_box) = true
    · rcases ho : attributesObject n.attrs with e | x
      · rw [handleBBLoop, if_pos hf, ho] at h
        cases h
        exact hm
      · rcases hmk : makeBoundingBoxMarker config n vc mns with e | mk
        · rw [handleBBLoop, if_pos hf, ho, hmk] at h
          cases h
        · rw [handleBBLoop, if_pos hf, ho, hmk] at h
          exact ih _ l h m (List.mem_append_left _ hm)
    · rw [handleBBLoop, if_neg hf] at h
      exact ih _ l h m (List.mem_append_left _ hm)

theorem handleBBLoop_append (config : LayerConfig) (vc : VisualizerConfig)
    (frame : String) (t : ℕ) (mns : String) :
    ∀ (nodes : List Node) (acc : List Marker),
      handleBBLoop config vc frame t mns nodes acc =
        Except.map (fun l => acc ++ l)
          (handleBBLoop config vc frame t mns nodes []) := by
  intro nodes
  induction nodes with
  | nil =>
    intro acc
    simp [handleBBLoop, Except.map]
  | cons n rest ih =>
    intro acc
    by_cases hf : (config.visualize && config.use_bounding_box) = true
    · rcases ho : attributesObject n.attrs with e | x
      · have stepL : handleBBLoop config vc frame t mns (n :: rest) acc =
            Except.ok acc := by
          rw [handleBBLoop, if_pos hf, ho]
        have stepR : handleBBLoop config vc frame t mns (n :: rest) [] =
            Except.ok [] := by
          rw [handleBBLoop, if_pos hf, ho]
        rw [stepL, stepR]
        simp [Except.map]
      · rcases hmk : makeBoundingBoxMarker config n vc mns with e | mk
        · have stepL : handleBBLoop config vc frame t mns (n :: rest) acc =
              Except.error e := by
            rw [handleBBLoop, if_pos hf, ho, hmk]
          have stepR : handleBBLoop config vc frame t mns (n :: rest) [] =
              Except.error e := by
            rw [handleBBLoop, if_pos hf, ho, hmk]
          rw [stepL, stepR]
          rfl
        · have step : ∀ a, handleBBLoop config vc frame t mns (n :: rest) a =
              handleBBLoop config vc frame t mns rest (a ++ [fillHeader frame t mk]) := by
            intro a
            rw [handleBBLoop, if_pos hf, ho, hmk]
          rw [step acc, step [], ih (acc ++ [fillHeader frame t mk]),
            ih ([] ++ [fillHeader frame t mk])]
          cases hbase : handleBBLoop config vc frame t mns rest [] <;>
            simp [Except.map, List.append_assoc]
    · have step : ∀ a, handleBBLoop config vc frame t mns (n :: rest) a =
          handleBBLoop config vc frame t mns rest
            (a ++ [fillHeader frame t (makeDeleteMarker n.id mns)]) := by
        intro a
        rw [handleBBLoop, if_neg hf]
      rw [step acc, step [],
        ih (acc ++ [fillHeader frame t (makeDeleteMarker n.id mns)]),
        ih ([] ++ [fillHeader frame t (makeDeleteMarker n.id mns)])]
      cases hbase : handleBBLoop config vc frame t mns rest [] <;>
        simp [Except.map, List.append_assoc]

theorem displayLayersLoop_cons_none (s : VisState) (g : Graph) (t : ℕ)
    (L : Layer) (rest : List Layer) (acc : DLAcc)
    (hfind : alistFind s.layer_configs L.id = none) :
    displayLayersLoop s g t (L :: rest) acc = displayLayersLoop s g t rest acc := by
  rw [displayLayersLoop, hfind]

theorem displayLayersLoop_cons_some (s : VisState) (g : Graph) (t : ℕ)
    (L : Layer) (rest : List Layer) (acc : DLAcc) (config : LayerConfig)
    (hfind : alistFind s.layer_configs L.id = some config) :
    displayLayersLoop s g t (L :: rest) acc =
      (match handleCentroids config s.visualizer_config s.world_frame t L
          acc.centroids with
       | .error err => .error err
       | .ok cents =>
         match handleBoundingBoxes config s.visualizer_config s.world_frame t L
             (handleLabels config s.visualizer_config s.world_frame t L acc.texts) with
         | .error err => .error err
         | .ok texts2 =>
           match handleMeshEdges config s.visualizer_config s.world_frame t g L
               acc.meshes with
           | .error err => .error err
           | .ok meshes1 =>
             displayLayersLoop s g t rest ⟨cents, texts2, meshes1, acc.boxes⟩) := by
  rw [displayLayersLoop, hfind]

theorem displayLayersLoop_boxes (s : VisState) (g : Graph) (t : ℕ) :
    ∀ (layers : List Layer) (acc r : DLAcc),
      displayLayersLoop s g t layers acc = Except.ok r → r.boxes = acc.boxes := by
  intro layers
  induction layers with
  | nil =>
    intro acc r h
    cases h
    rfl
  | cons L rest ih =>
    intro acc r h
    rcases hfind : alistFind s.layer_configs L.id with _ | config
    · rw [displayLayersLoop_cons_none s g t L rest acc hfind] at h
      exact ih acc r h
    · rw [displayLayersLoop_cons_some s g t L rest acc config hfind] at h
      rcases hc : handleCentroids config s.visualizer_config s.world_frame t L
          acc.centroids with e | cents
      · rw [hc] at h
        cases h
      · rw [hc] at h
        rcases hb : handleBoundingBoxes config s.visualizer_config s.world_frame t L
            (handleLabels config s.visualizer_config s.world_frame t L acc.texts)
          with e | texts2
        · rw [hb] at h
          cases h
        · rw [hb] at h
          rcases hm : handleMeshEdges config s.visualizer_config s.world_frame t g L
              acc.meshes with e | meshes1
          · rw [hm] at h
            cases h
          · rw [hm] at h
            simpa using ih ⟨cents, texts2, meshes1, acc.boxes⟩ r h

theorem displayLayersLoop_texts_mem (s : VisState) (g : Graph) (t : ℕ) :
    ∀ (layers : List Layer) (acc r : DLAcc),
      displayLayersLoop s g t layers acc = Except.ok r →
      ∀ m ∈ acc.texts, m ∈ r.texts := by
  intro layers
  induction layers with
  | nil =>
    intro acc r h m hm
    cases h
    exact hm
  | cons L rest ih =>
    intro acc r h m hm
    rcases hfind : alistFind s.layer_configs L.id with _ | config
    · rw [displayLayersLoop_cons_none s g t L rest acc hfind] at h
      exact ih acc r h m hm
    · rw [displayLayersLoop_cons_some s g t L rest acc config hfind] at h
      rcases hc : handleCentroids config s.visualizer_config s.world_frame t L
          acc.centroids with e | cents
      · rw [hc] at h
        cases h
      · rw [hc] at h
        rcases hb : handleBoundingBoxes config s.visualizer_config s.world_frame t L
            (handleLabels config s.visualizer_config s.world_frame t L acc.texts)
          with e | texts2
        · rw [hb] at h
          cases h
        · rw [hb] at h
          rcases hme : handleMeshEdges config s.visualizer_config s.world_frame t g L
              acc.meshes with e | meshes1
          · rw [hme] at h
            cases h
          · rw [hme] at h
            refine ih _ r h m ?_
            have h1 : m ∈ handleLabels config s.visualizer_config s.world_frame t L
                acc.texts := handleLabels_mem _ _ _ _ _ _ _ hm
            exact handleBBLoop_mem _ _ _ _ _ _ _ _ hb m h1

theorem displayLayersLoop_bb_mem (s : VisState) (g : Graph) (t : ℕ) :
    ∀ (layers : List Layer) (acc r : DLAcc),
      displayLayersLoop s g t layers acc = Except.ok r →
      ∀ L ∈ layers, ∀ config, alistFind s.layer_configs L.id = some config →
      ∀ bl, handleBBLoop config s.visualizer_config s.world_frame t (bbNs L.id)
          L.nodes [] = Except.ok bl →
      ∀ m ∈ bl, m ∈ r.texts := by
  intro layers
  induction layers with
  | nil =>
    intro acc r _ L hL
    simp at hL
  | cons L0 rest ih =>
    intro acc r h L hL config hcfg bl hbl m hm
    rcases List.mem_cons.mp hL with hLeq | hLmem
    · subst hLeq
      rw [displayLayersLoop_cons_some s g t L rest acc config hcfg] at h
      rcases hc : handleCentroids config s.visualizer_config s.world_frame t L
          acc.centroids with e | cents
      · rw [hc] at h
        cases h
      · rw [hc] at h
        have hbb2 : handleBoundingBoxes config s.visualizer_config s.world_frame t L
            (handleLabels config s.visualizer_config s.world_frame t L acc.texts) =
            Except.ok (handleLabels config s.visualizer_config s.world_frame t L
              acc.texts ++ bl) := by
          unfold handleBoundingBoxes
          rw [handleBBLoop_append, hbl]
          rfl
        rw [hbb2] at h
        rcases hme : handleMeshEdges config s.visualizer_config s.world_frame t g L
            acc.meshes with e | meshes1
        · rw [hme] at h
          cases h
        · rw [hme] at h
          exact displayLayersLoop_texts_mem s g t rest _ r h m
            (List.mem_append_right _ hm)
    · rcases hfind : alistFind s.layer_configs L0.id with _ | config0
      · rw [displayLayersLoop_cons_none s g t L0 rest acc hfind] at h
        exact ih acc r h L hLmem config hcfg bl hbl m hm
      · rw [displayLayersLoop_cons_some s g t L0 rest acc config0 hfind] at h
        rcases hc : handleCentroids config0 s.visualizer_config s.world_frame t L0
            acc.centroids with e | cents
        · rw [hc] at h
          cases h
        · rw [hc] at h
          rcases hb : handleBoundingBoxes config0 s.visualizer_config s.world_frame t L0
              (handleLabels config0 s.visualizer_config s.world_frame t L0 acc.texts)
            with e | texts2
          · rw [hb] at h
            cases h
          · rw [hb] at h
            rcases hme : handleMeshEdges config0 s.visualizer_config s.world_frame t g L0
                acc.meshes with e | meshes1
            · rw [hme] at h
              cases h
            · rw [hme] at h
              exact ih _ r h L hLmem config hcfg bl hbl m hm

/-- C10: in every layer-display pass, the dedicated bounding-box channel is
never published (its batch stays empty), while every bounding-box marker a
layer produces is appended to the label (text) batch and goes out on the
label channel. -/
theorem c10_bounding_box_channel (s : VisState) (g : Graph) (t : ℕ)
    (out : LayerOut) (h : displayLayers s g t = Except.ok out) :
    out.bounding_box_msg = none ∧
    (∀ L ∈ g.layers, ∀ config, alistFind s.layer_configs L.id = some config →
      ∀ bl, handleBBLoop config s.visualizer_config s.world_frame t (bbNs L.id)
          L.nodes [] = Except.ok bl →
      ∀ m ∈ bl, ∃ a, out.text_msg = some a ∧ m ∈ a.markers) := by
  unfold displayLayers at h
  rcases hl : displayLayersLoop s g t g.layers ⟨[], [], [], []⟩ with err | acc
  · rw [hl] at h
    cases h
  · rw [hl] at h
    cases h
    constructor
    · have hb := displayLayersLoop_boxes s g t g.layers _ _ hl
      simp only at hb
      simp [publishNonempty, hb]
    · intro L hL config hcfg bl hbl m hm
      have hmem := displayLayersLoop_bb_mem s g t g.layers _ _ hl L hL config
        hcfg bl hbl m hm
      have hne : acc.texts ≠ [] := List.ne_nil_of_mem hmem
      refine ⟨⟨acc.texts⟩, ?_, hmem⟩
      simp [publishNonempty, hne]

/-- Config with bounding boxes enabled for the C10 witness. -/
def c10Cfg : LayerConfig := { visualize := true, use_bounding_box := true }

/-- A valid axis-aligned box for the C10 witness. -/
def c10Box : BoundingBox := ⟨BBType.AABB, ⟨0, 0, 1⟩, quatZero, ⟨0, 0, 0⟩, ⟨2, 2, 2⟩⟩

/-- An object node in layer 7. -/
def c10Node : Node := ⟨4, 7, NodeAttrs.object ⟨0, 0, 0⟩ ⟨5, 6, 7⟩ c10Box⟩

/-- The C10 witness layer / graph / state. -/
def c10Layer : Layer := ⟨7, [c10Node], []⟩

/-- The C10 witness graph. -/
def c10Graph : Graph := ⟨[c10Layer], [], []⟩

/-- The C10 witness state. -/
def c10State : VisState :=
  { scene_graph := some c10Graph, need_redraw := true, world_frame := "world",
    visualizer_config := {}, layer_configs := [(7, c10Cfg)] }

/-- The channel output of the witness pass. -/
def c10Out : LayerOut :=
  (displayLayers c10State c10Graph 0).toOption.getD ⟨none, none, none, none⟩

/-- The bounding-box markers the witness layer produces on its own. -/
def c10Markers : List Marker :=
  (handleBBLoop c10Cfg {} "world" 0 (bbNs 7) [c10Node] []).toOption.getD []

/-- The single bounding-box marker of the witness layer. -/
def c10BoxMarker : Marker := c10Markers.getD 0 (makeDeleteMarker 0 "")

/-- C10 witness: on the concrete pass the bounding-box channel is silent
and the box marker is found inside the published label-channel message. -/
theorem c10_bounding_box_channel_witness :
    c10Out.bounding_box_msg = none ∧
      ∃ a, c10Out.text_msg = some a ∧ c10BoxMarker ∈ a.markers := by
  have h := c10_bounding_box_channel c10State c10Graph 0 c10Out rfl
  refine ⟨h.1, ?_⟩
  exact h.2 c10Layer (List.Mem.head _) c10Cfg rfl c10Markers rfl c10BoxMarker
    (List.Mem.head _)

/-! ## C3 / C6: specification functions for the inter-layer edge builder -/

/-- Resolve both endpoints of an edge, as lines 189-190 do. -/
def resolveEdge (g : Graph) (e : Edge) : Option (Node × Node) :=
  match g.getNode e.source, g.getNode e.target with
  | some s, some t => some (s, t)
  | _, _ => none

/-- An edge is ELIGIBLE for source layer L when it resolves, its source
node lives in L, and both endpoint layers have configurations marked
visualize; eligible edges are the ones the skip counter of L counts. -/
def edgeEligFor (g : Graph) (configs : List (ℕ × LayerConfig)) (L : ℕ)
    (e : Edge) : Option (Node × Node) :=
  match resolveEdge g e with
  | none => none
  | some (s, t) =>
    if s.layer = L then
      match alistFind configs s.layer, alistFind configs t.layer with
      | some cs, some ct =>
        if cs.visualize && ct.visualize then some (s, t) else none
      | _, _ => none
    else none

/-- The eligible edges of source layer L among a list of edges, in
traversal order. -/
def eligEdgesOver (g : Graph) (configs : List (ℕ × LayerConfig))
    (edges : List Edge) (L : ℕ) : List (Node × Node) :=
  edges.filterMap (edgeEligFor g configs L)

/-- The source layers encountered so far (the keys of layer_markers). -/
def seenLayers (g : Graph) (edges : List Edge) : List ℕ :=
  edges.filterMap (fun e => (g.getNode e.source).map Node.layer)

/-- The reference skip-stride: starting from counter c, keep an element
when the counter has reached n (resetting it), else increment and drop —
exactly the counter discipline of visualizer_utils.cpp lines 212-219. -/
def strideFilter {α : Type} (n : ℕ) : ℕ → List α → List α
  | _, [] => []
  | c, a :: rest =>
    if n ≤ c then a :: strideFilter n 0 rest else strideFilter n (c + 1) rest

/-- The two offset endpoints a drawn edge contributes (visualizer_utils.cpp
lines 222-230). -/
def edgeSegment (configs : List (ℕ × LayerConfig)) (vc : VisualizerConfig)
    (p : Node × Node) : List Point :=
  [withZ p.1.attrs.position
     (getZOffset ((alistFind configs p.1.layer).getD layerConfigDefault) vc),
   withZ p.2.attrs.position
     (getZOffset ((alistFind configs p.2.layer).getD layerConfigDefault) vc)]

/-- The concatenated endpoint pairs of a list of drawn edges. -/
def segPoints (configs : List (ℕ × LayerConfig)) (vc : VisualizerConfig)
    (l : List (Node × Node)) : List Point :=
  l.flatMap (edgeSegment configs vc)

/-- Success test on the error monad. -/
def isOkB {ε α : Type} : Except ε α → Bool
  | .ok _ => true
  | .error _ => false

/-- Decidable well-formedness of one inter-layer edge: both endpoints
resolve, both endpoint layers are configured, and both endpoint nodes
carry a semantic color (so no lookup inside the builder can fail). -/
def edgeHypB (g : Graph) (configs : List (ℕ × LayerConfig)) (e : Edge) : Bool :=
  match g.getNode e.source, g.getNode e.target with
  | some s, some t =>
    (alistFind configs s.layer).isSome && (alistFind configs t.layer).isSome &&
      isOkB (attributesSemantic s.attrs) && isOkB (attributesSemantic t.attrs)
  | _, _ => false

theorem edgeHyp_elim {g : Graph} {configs : List (ℕ × LayerConfig)} {e : Edge}
    (h : edgeHypB g configs e = true) :
    ∃ s t cs ct c1 c2,
      g.getNode e.source = some s ∧ g.getNode e.target = some t ∧
      alistFind configs s.layer = some cs ∧ alistFind configs t.layer = some ct ∧
      attributesSemantic s.attrs = Except.ok c1 ∧
      attributesSemantic t.attrs = Except.ok c2 := by
  rcases hs : g.getNode e.source with _ | s
  · rw [edgeHypB, hs] at h
    cases h
  · rcases ht : g.getNode e.target with _ | t
    · rw [edgeHypB, hs, ht] at h
      cases h
    · rw [edgeHypB, hs, ht] at h
      simp only [Bool.and_eq_true] at h
      obtain ⟨⟨⟨hcs, hct⟩, h1⟩, h2⟩ := h
      rcases hcse : alistFind configs s.layer with _ | cs
      · rw [hcse] at hcs
        cases hcs
      · rcases hcte : alistFind configs t.layer with _ | ct
        · rw [hcte] at hct
          cases hct
        · rcases h1e : attributesSemantic s.attrs with e1 | c1
          · rw [h1e] at h1
            cases h1
          · rcases h2e : attributesSemantic t.attrs with e2 | c2
            · rw [h2e] at h2
              cases h2
            · exact ⟨s, t, cs, ct, c1, c2, rfl, rfl, hcse, hcte, h1e, h2e⟩

theorem edgeColor_ok {cs : LayerConfig} {s t : Node} {c1 c2 : NodeColor}
    (h1 : attributesSemantic s.attrs = Except.ok c1)
    (h2 : attributesSemantic t.attrs = Except.ok c2) :
    ∃ c, edgeColor cs s t = Except.ok c := by
  unfold edgeColor
  by_cases hu : cs.interlayer_edge_use_color
  · by_cases he : cs.use_edge_source
    · exact ⟨c1, by simp [hu, he, h1]⟩
    · exact ⟨c2, by simp [hu, he, h2]⟩
  · exact ⟨⟨0, 0, 0⟩, by simp [hu]⟩

theorem modCounterStep (m a : ℕ) :
    (a + 1) % (m + 1) = if a % (m + 1) = m then 0 else a % (m + 1) + 1 := by
  by_cases h : a % (m + 1) = m
  · rw [if_pos h, Nat.add_mod, h]
    cases m with
    | zero => simp
    | succ mm =>
      have h1 : 1 % (mm + 1 + 1) = 1 := Nat.mod_eq_of_lt (by omega)
      rw [h1]
      exact Nat.mod_self _
  · rw [if_neg h, Nat.add_mod]
    have hr : a % (m + 1) < m + 1 := Nat.mod_lt _ (Nat.succ_pos m)
    cases m with
    | zero => exact absurd (Nat.mod_one a) h
    | succ mm =>
      have h1 : 1 % (mm + 1 + 1) = 1 := Nat.mod_eq_of_lt (by omega)
      rw [h1]
      exact Nat.mod_eq_of_lt (by omega)

theorem modSuccIff (n len : ℕ) :
    (len + 1) % (n + 1) = 0 ↔ n ≤ len % (n + 1) := by
  have hr : len % (n + 1) < n + 1 := Nat.mod_lt _ (Nat.succ_pos n)
  rw [modCounterStep]
  by_cases h : len % (n + 1) = n
  · simp [h]
  · simp only [if_neg h]
    constructor
    · intro hc
      cases hc
    · intro hc
      exact absurd (by omega : len % (n + 1) = n) h

theorem strideFilter_sublist {α : Type} (n : ℕ) :
    ∀ (l : List α) (c : ℕ), List.Sublist (strideFilter n c l) l := by
  intro l
  induction l with
  | nil =>
    intro c
    simp [strideFilter]
  | cons a rest ih =>
    intro c
    rw [strideFilter]
    by_cases h : n ≤ c
    · rw [if_pos h]
      exact List.Sublist.cons₂ a (ih 0)
    · rw [if_neg h]
      exact List.Sublist.cons a (ih (c + 1))

theorem strideFilter_append {α : Type} (n : ℕ) :
    ∀ (l1 l2 : List α) (c : ℕ), c ≤ n →
      strideFilter n c (l1 ++ l2) =
        strideFilter n c l1 ++ strideFilter n ((c + l1.length) % (n + 1)) l2 := by
  intro l1
  induction l1 with
  | nil =>
    intro l2 c hc
    rw [List.nil_append, strideFilter]
    simp [Nat.mod_eq_of_lt (by omega : c < n + 1)]
  | cons a rest ih =>
    intro l2 c hc
    rw [List.cons_append, strideFilter, strideFilter]
    by_cases h : n ≤ c
    · rw [if_pos h, if_pos h, ih l2 0 (Nat.zero_le n), List.cons_append]
      have he : (0 + rest.length) % (n + 1) = (c + (a :: rest).length) % (n + 1) := by
        have hc' : c = n := le_antisymm hc h
        subst hc'
        rw [List.length_cons, Nat.zero_add]
        have harr : c + (rest.length + 1) = (c + 1) + rest.length := by omega
        rw [harr, Nat.add_mod_left]
      rw [he]
    · rw [if_neg h, if_neg h, ih l2 (c + 1) (by omega)]
      have he : (c + 1 + rest.length) % (n + 1) = (c + (a :: rest).length) % (n + 1) := by
        rw [List.length_cons]
        congr 1
        omega
      rw [he]

theorem strideFilter_singleton {α : Type} (n c : ℕ) (a : α) :
    strideFilter n c [a] = if n ≤ c then [a] else [] := by
  rw [strideFilter]
  by_cases h : n ≤ c
  · rw [if_pos h, if_pos h]
    rfl
  · rw [if_neg h, if_neg h]
    rfl

theorem strideFilter_eq_enumFilter {α : Type} (n : ℕ) (l : List α) :
    strideFilter n 0 l =
      ((l.enum.filter (fun p => (p.1 + 1) % (n + 1) == 0)).map Prod.snd) := by
  induction l using List.reverseRecOn with
  | nil => rfl
  | append_singleton l a ih =>
    rw [strideFilter_append n l [a] 0 (Nat.zero_le n), ih, List.enum_append,
      List.filter_append, List.map_append, strideFilter_singleton]
    have henum : List.enumFrom l.length [a] = [(l.length, a)] := rfl
    rw [henum]
    simp only [Nat.zero_add]
    by_cases h : n ≤ l.length % (n + 1)
    · rw [if_pos h]
      have hcond : ((l.length + 1) % (n + 1) == 0) = true := by
        simp [(modSuccIff n l.length).mpr h]
      simp [List.filter_cons, hcond]
    · rw [if_neg h]
      have hcond : ((l.length + 1) % (n + 1) == 0) = false := by
        simp only [beq_eq_false_iff_ne]
        intro hc
        exact h ((modSuccIff n l.length).mp hc)
      simp [List.filter_cons, hcond]

theorem seenLayers_append (g : Graph) (done : List Edge) (e : Edge) :
    seenLayers g (done ++ [e]) =
      seenLayers g done ++ ((g.getNode e.source).map Node.layer).toList := by
  unfold seenLayers
  rw [List.filterMap_append]
  congr 1

theorem eligEdgesOver_append (g : Graph) (configs : List (ℕ × LayerConfig))
    (done : List Edge) (e : Edge) (L : ℕ) :
    eligEdgesOver g configs (done ++ [e]) L =
      eligEdgesOver g configs done L ++ (edgeEligFor g configs L e).toList := by
  unfold eligEdgesOver
  rw [List.filterMap_append]
  congr 1

theorem seenLayers_mono (g : Graph) (e : Edge) (rest : List Edge) {L : ℕ}
    (h : L ∈ seenLayers g rest) : L ∈ seenLayers g (e :: rest) := by
  unfold seenLayers at h ⊢
  rw [List.filterMap_cons]
  cases (g.getNode e.source).map Node.layer with
  | none => exact h
  | some x => exact List.mem_cons_of_mem _ h

theorem eligEdgesOver_eq_nil (g : Graph) (configs : List (ℕ × LayerConfig))
    (L : ℕ) :
    ∀ (done : List Edge), L ∉ seenLayers g done →
      eligEdgesOver g configs done L = [] := by
  intro done
  induction done with
  | nil =>
    intro _
    rfl
  | cons e rest ih =>
    intro h
    have hrest : L ∉ seenLayers g rest := fun hc => h (seenLayers_mono g e rest hc)
    rcases hs : g.getNode e.source with _ | s
    · have hfe : edgeEligFor g configs L e = none := by
        rw [edgeEligFor, resolveEdge, hs]
      rw [eligEdgesOver, List.filterMap_cons, hfe]
      exact ih hrest
    · have hne : s.layer ≠ L := by
        intro hc
        apply h
        unfold seenLayers
        rw [List.filterMap_cons, hs]
        show L ∈ s.layer ::
          List.filterMap (fun e => (g.getNode e.source).map Node.layer) rest
        rw [hc]
        exact List.mem_cons_self _ _
      have hfe : edgeEligFor g configs L e = none := by
        rcases ht : g.getNode e.target with _ | t
        · rw [edgeEligFor, resolveEdge, hs, ht]
        · rw [edgeEligFor, resolveEdge, hs, ht]
          simp [hne]
      rw [eligEdgesOver, List.filterMap_cons, hfe]
      exact ih hrest

theorem edgeEligFor_eq_resolved (g : Graph) (configs : List (ℕ × LayerConfig))
    (L : ℕ) (e : Edge) (s t : Node)
    (hs : g.getNode e.source = some s) (ht : g.getNode e.target = some t) :
    edgeEligFor g configs L e =
      (if s.layer = L then
        match alistFind configs s.layer, alistFind configs t.layer with
        | some cs, some ct =>
          if cs.visualize && ct.visualize then some (s, t) else none
        | _, _ => none
      else none) := by
  rw [edgeEligFor, resolveEdge, hs, ht]

theorem edgeEligFor_spec {g : Graph} {configs : List (ℕ × LayerConfig)}
    {L : ℕ} {e : Edge} {p : Node × Node}
    (h : edgeEligFor g configs L e = some p) :
    p.1.layer = L ∧ g.getNode e.source = some p.1 ∧
      g.getNode e.target = some p.2 ∧
      ∃ cs ct, alistFind configs p.1.layer = some cs ∧
        alistFind configs p.2.layer = some ct ∧
        cs.visualize = true ∧ ct.visualize = true := by
  rcases hs : g.getNode e.source with _ | s
  · rw [edgeEligFor, resolveEdge, hs] at h
    cases h
  · rcases ht : g.getNode e.target with _ | t
    · rw [edgeEligFor, resolveEdge, hs, ht] at h
      cases h
    · rw [edgeEligFor_eq_resolved g configs L e s t hs ht] at h
      by_cases hl : s.layer = L
      · rw [if_pos hl] at h
        rcases hcs : alistFind configs s.layer with _ | cs
        · rw [hcs] at h
          cases h
        · rcases hct : alistFind configs t.layer with _ | ct
          · rw [hcs, hct] at h
            cases h
          · rw [hcs, hct] at h
            have h2 : (if cs.visualize && ct.visualize then some (s, t) else none) =
                some p := h
            by_cases hv : (cs.visualize && ct.visualize) = true
            · rw [if_pos hv] at h2
              cases h2
              have hv' := hv
              simp only [Bool.and_eq_true] at hv'
              exact ⟨hl, rfl, rfl, cs, ct, hcs, hct, hv'.1, hv'.2⟩
            · rw [if_neg hv] at h2
              cases h2
      · rw [if_neg hl] at h
        cases h

theorem eligEdgesOver_mem {g : Graph} {configs : List (ℕ × LayerConfig)}
    {edges : List Edge} {L : ℕ} {p : Node × Node}
    (h : p ∈ eligEdgesOver g configs edges L) :
    ∃ e ∈ edges, edgeEligFor g configs L e = some p :=
  List.mem_filterMap.mp h

/-! ## The loop invariant of makeGraphEdgeMarkers -/

/-- Per-source-layer invariant: the layer is configured, its skip counter
equals the number of eligible edges seen so far modulo (skip + 1), and its
marker carries exactly the stride-filtered eligible edges as points. -/
def gemLayerProp (g : Graph) (configs : List (ℕ × LayerConfig))
    (vc : VisualizerConfig) (done : List Edge) (st : GEMState) (K : ℕ) : Prop :=
  ∃ cs, alistFind configs K = some cs ∧
    alistFind st.num_since K =
      some ((eligEdgesOver g configs done K).length %
        (cs.interlayer_edge_insertion_skip + 1)) ∧
    ∃ m, alistFind st.layer_markers K = some m ∧ m.id = K ∧
      m.points = segPoints configs vc
        (strideFilter cs.interlayer_edge_insertion_skip 0
          (eligEdgesOver g configs done K))

/-- The loop invariant: sorted marker keys, nothing stored for unseen
source layers, and gemLayerProp for every seen source layer. -/
def gemInv (g : Graph) (configs : List (ℕ × LayerConfig))
    (vc : VisualizerConfig) (done : List Edge) (st : GEMState) : Prop :=
  alistSorted st.layer_markers ∧
  (∀ K, K ∉ seenLayers g done →
    alistFind st.layer_markers K = none ∧ alistFind st.num_since K = none) ∧
  (∀ K, K ∈ seenLayers g done → gemLayerProp g configs vc done st K)

theorem gemLayerProp_congr {g : Graph} {configs : List (ℕ × LayerConfig)}
    {vc : VisualizerConfig} {done done' : List Edge} {st : GEMState} {K : ℕ}
    (h : eligEdgesOver g configs done' K = eligEdgesOver g configs done K)
    (hp : gemLayerProp g configs vc done st K) :
    gemLayerProp g configs vc done' st K := by
  unfold gemLayerProp at hp ⊢
  rw [h]
  exact hp

theorem gemLayerProp_state {g : Graph} {configs : List (ℕ × LayerConfig)}
    {vc : VisualizerConfig} {done : List Edge} {st st' : GEMState} {K : ℕ}
    (hm : alistFind st'.layer_markers K = alistFind st.layer_markers K)
    (hn : alistFind st'.num_since K = alistFind st.num_since K)
    (hp : gemLayerProp g configs vc done st K) :
    gemLayerProp g configs vc done st' K := by
  unfold gemLayerProp at hp ⊢
  rw [hm, hn]
  exact hp

theorem gemStep_eq (g : Graph) (configs : List (ℕ × LayerConfig))
    (vc : VisualizerConfig) (st : GEMState) (e : Edge) (s t : Node)
    (hs : g.getNode e.source = some s) (ht : g.getNode e.target = some t) :
    gemStep g configs vc st e =
      (match gemCreate configs s t st with
       | .error err => .error err
       | .ok st1 => gemProcess configs vc s t st1) := by
  rw [gemStep, hs, ht]

theorem gemCreate_seen (configs : List (ℕ × LayerConfig)) (s t : Node)
    (st : GEMState) (h : (alistFind st.layer_markers s.layer).isSome = true) :
    gemCreate configs s t st = Except.ok st := by
  rw [gemCreate, if_pos h]

theorem gemCreate_new (configs : List (ℕ × LayerConfig)) (s t : Node)
    (st : GEMState) (cs ct : LayerConfig)
    (h : alistFind st.layer_markers s.layer = none)
    (hcs : alistFind configs s.layer = some cs)
    (hct : alistFind configs t.layer = some ct) :
    gemCreate configs s t st = Except.ok
      ⟨alistInsert st.layer_markers s.layer
         (if ct.visualize then makeNewEdgeList cs s.layer
          else { makeNewEdgeList cs s.layer with action := .DELETE }),
       alistInsert st.num_since s.layer 0⟩ := by
  rw [gemCreate, if_neg (by simp [h]), hcs, hct]

theorem gemProcess_eq (configs : List (ℕ × LayerConfig)) (vc : VisualizerConfig)
    (s t : Node) (st1 : GEMState) (cs : LayerConfig)
    (hcs : alistFind configs s.layer = some cs) :
    gemProcess configs vc s t st1 =
      (if cs.visualize = false then Except.ok st1
       else
         match alistFind configs t.layer with
         | none => Except.error VizError.missingConfig
         | some ct =>
           if ct.visualize = false then Except.ok st1
           else gemDraw configs vc s t cs ct st1) := by
  rw [gemProcess, hcs]

theorem gemDraw_eq (configs : List (ℕ × LayerConfig)) (vc : VisualizerConfig)
    (s t : Node) (cs ct : LayerConfig) (st1 : GEMState) (cnt : ℕ)
    (hnum : alistFind st1.num_since s.layer = some cnt) :
    gemDraw configs vc s t cs ct st1 =
      (if cs.interlayer_edge_insertion_skip ≤ cnt then
        match alistFind st1.layer_markers s.layer with
        | none => Except.error VizError.badNode
        | some m =>
          match edgeColor cs s t with
          | .error err => Except.error err
          | .ok col =>
            Except.ok ⟨alistInsert st1.layer_markers s.layer
               { m with
                 points := m.points ++
                   [withZ s.attrs.position (getZOffset cs vc),
                    withZ t.attrs.position (getZOffset ct vc)],
                 colors := m.colors ++
                   [makeColorMsg col cs.intralayer_edge_alpha,
                    makeColorMsg col cs.intralayer_edge_alpha] },
             alistInsert st1.num_since s.layer 0⟩
      else
        Except.ok { st1 with
          num_since := alistInsert st1.num_since s.layer (cnt + 1) }) := by
  rw [gemDraw, hnum]
  rfl

theorem segPoints_append_singleton (configs : List (ℕ × LayerConfig))
    (vc : VisualizerConfig) (l : List (Node × Node)) (p : Node × Node) :
    segPoints configs vc (l ++ [p]) =
      segPoints configs vc l ++ edgeSegment configs vc p := by
  unfold segPoints
  rw [List.flatMap_append]
  simp

theorem gemProcessStep_inv (g : Graph) (configs : List (ℕ × LayerConfig))
    (vc : VisualizerConfig) (done : List Edge) (e : Edge) (s0 t0 : Node)
    (cs ct : LayerConfig) (c1 c2 : NodeColor)
    (hs : g.getNode e.source = some s0) (ht : g.getNode e.target = some t0)
    (hcs : alistFind configs s0.layer = some cs)
    (hct : alistFind configs t0.layer = some ct)
    (hsem1 : attributesSemantic s0.attrs = Except.ok c1)
    (hsem2 : attributesSemantic t0.attrs = Except.ok c2)
    (st1 : GEMState)
    (hsorted1 : alistSorted st1.layer_markers)
    (hnone1 : ∀ K, K ∉ seenLayers g done → K ≠ s0.layer →
      alistFind st1.layer_markers K = none ∧ alistFind st1.num_since K = none)
    (hsome1 : ∀ K, K ∈ seenLayers g done → gemLayerProp g configs vc done st1 K)
    (hcntL : alistFind st1.num_since s0.layer =
      some ((eligEdgesOver g configs done s0.layer).length %
        (cs.interlayer_edge_insertion_skip + 1)))
    (hmarkL : ∃ m1, alistFind st1.layer_markers s0.layer = some m1 ∧
      m1.id = s0.layer ∧
      m1.points = segPoints configs vc
        (strideFilter cs.interlayer_edge_insertion_skip 0
          (eligEdgesOver g configs done s0.layer))) :
    ∃ st', gemProcess configs vc s0 t0 st1 = Except.ok st' ∧
      gemInv g configs vc (done ++ [e]) st' := by
  obtain ⟨m1, hm1, hid1, hpts1⟩ := hmarkL
  have hmemSeen : ∀ K, K ∈ seenLayers g (done ++ [e]) ↔
      K ∈ seenLayers g done ∨ K = s0.layer := by
    intro K
    rw [seenLayers_append, hs]
    show K ∈ seenLayers g done ++ [s0.layer] ↔ _
    simp
  have heligNe : ∀ K, K ≠ s0.layer →
      eligEdgesOver g configs (done ++ [e]) K = eligEdgesOver g configs done K := by
    intro K hK
    rw [eligEdgesOver_append]
    have hfe : edgeEligFor g configs K e = none := by
      rw [edgeEligFor_eq_resolved g configs K e s0 t0 hs ht,
        if_neg (fun hc => hK hc.symm)]
    rw [hfe]
    simp
  by_cases hv1 : cs.visualize = false
  · -- source layer not visualized: edge dropped, state unchanged
    have hP : gemProcess configs vc s0 t0 st1 = Except.ok st1 := by
      rw [gemProcess_eq configs vc s0 t0 st1 cs hcs, if_pos hv1]
    have heligL : eligEdgesOver g configs (done ++ [e]) s0.layer =
        eligEdgesOver g configs done s0.layer := by
      rw [eligEdgesOver_append]
      have hfe : edgeEligFor g configs s0.layer e = none := by
        rw [edgeEligFor_eq_resolved g configs s0.layer e s0 t0 hs ht, if_pos rfl,
          hcs, hct]
        show (if cs.visualize && ct.visualize then some (s0, t0) else none) = none
        rw [if_neg (by simp [hv1])]
      rw [hfe]
      simp
    refine ⟨st1, hP, hsorted1, ?_, ?_⟩
    · intro K hK
      rw [hmemSeen K] at hK
      push_neg at hK
      exact hnone1 K hK.1 hK.2
    · intro K hK
      rw [hmemSeen K] at hK
      by_cases hKL : K = s0.layer
      · subst hKL
        exact gemLayerProp_congr heligL ⟨cs, hcs, hcntL, m1, hm1, hid1, hpts1⟩
      · rcases hK with hK | hK
        · exact gemLayerProp_congr (heligNe K hKL) (hsome1 K hK)
        · exact absurd hK hKL
  · by_cases hv2 : ct.visualize = false
    · -- target layer not visualized: edge dropped, state unchanged
      have hP : gemProcess configs vc s0 t0 st1 = Except.ok st1 := by
        rw [gemProcess_eq configs vc s0 t0 st1 cs hcs, if_neg (by simp [hv1]), hct]
        show (if ct.visualize = false then Except.ok st1 else _) = _
        rw [if_pos hv2]
      have heligL : eligEdgesOver g configs (done ++ [e]) s0.layer =
          eligEdgesOver g configs done s0.layer := by
        rw [eligEdgesOver_append]
        have hfe : edgeEligFor g configs s0.layer e = none := by
          rw [edgeEligFor_eq_resolved g configs s0.layer e s0 t0 hs ht, if_pos rfl,
            hcs, hct]
          show (if cs.visualize && ct.visualize then some (s0, t0) else none) = none
          rw [if_neg (by simp [hv2])]
        rw [hfe]
        simp
      refine ⟨st1, hP, hsorted1, ?_, ?_⟩
      · intro K hK
        rw [hmemSeen K] at hK
        push_neg at hK
        exact hnone1 K hK.1 hK.2
      · intro K hK
        rw [hmemSeen K] at hK
        by_cases hKL : K = s0.layer
        · subst hKL
          exact gemLayerProp_congr heligL ⟨cs, hcs, hcntL, m1, hm1, hid1, hpts1⟩
        · rcases hK with hK | hK
          · exact gemLayerProp_congr (heligNe K hKL) (hsome1 K hK)
          · exact absurd hK hKL
    · -- both endpoint layers visualized: the edge is eligible
      have hvb1 : cs.visualize = true := by
        cases hb : cs.visualize
        · exact absurd hb hv1
        · rfl
      have hvb2 : ct.visualize = true := by
        cases hb : ct.visualize
        · exact absurd hb hv2
        · rfl
      have hP : gemProcess configs vc s0 t0 st1 =
          gemDraw configs vc s0 t0 cs ct st1 := by
        rw [gemProcess_eq configs vc s0 t0 st1 cs hcs, if_neg (by simp [hvb1]), hct]
        show (if ct.visualize = false then Except.ok st1 else _) = _
        rw [if_neg (by simp [hvb2])]
      have heligL : eligEdgesOver g configs (done ++ [e]) s0.layer =
          eligEdgesOver g configs done s0.layer ++ [(s0, t0)] := by
        rw [eligEdgesOver_append]
        have hfe : edgeEligFor g configs s0.layer e = some (s0, t0) := by
          rw [edgeEligFor_eq_resolved g configs s0.layer e s0 t0 hs ht, if_pos rfl,
            hcs, hct]
          show (if cs.visualize && ct.visualize then some (s0, t0) else none) = _
          rw [if_pos (by simp [hvb1, hvb2])]
        rw [hfe]
        rfl
      set N := cs.interlayer_edge_insertion_skip with hN
      set count := (eligEdgesOver g configs done s0.layer).length with hcount
      have hmodlt : count % (N + 1) < N + 1 := Nat.mod_lt _ (Nat.succ_pos N)
      have hlen' : (eligEdgesOver g configs (done ++ [e]) s0.layer).length =
          count + 1 := by
        rw [heligL]
        simp [hcount]
      have hstride : strideFilter N 0 (eligEdgesOver g configs (done ++ [e]) s0.layer) =
          strideFilter N 0 (eligEdgesOver g configs done s0.layer) ++
            (if N ≤ count % (N + 1) then [(s0, t0)] else []) := by
        rw [heligL, strideFilter_append N _ _ 0 (Nat.zero_le N),
          strideFilter_singleton]
        rw [Nat.zero_add, ← hcount]
      by_cases hcond : N ≤ count % (N + 1)
      · -- counter reached the skip: draw the edge, reset the counter
        obtain ⟨col, hcol⟩ := edgeColor_ok hsem1 hsem2
        have hD : gemDraw configs vc s0 t0 cs ct st1 = Except.ok
            ⟨alistInsert st1.layer_markers s0.layer
               { m1 with
                 points := m1.points ++
                   [withZ s0.attrs.position (getZOffset cs vc),
                    withZ t0.attrs.position (getZOffset ct vc)],
                 colors := m1.colors ++
                   [makeColorMsg col cs.intralayer_edge_alpha,
                    makeColorMsg col cs.intralayer_edge_alpha] },
             alistInsert st1.num_since s0.layer 0⟩ := by
          rw [gemDraw_eq configs vc s0 t0 cs ct st1 (count % (N + 1)) hcntL,
            if_pos hcond, hm1, hcol]
        have hmodN : count % (N + 1) = N := by omega
        refine ⟨_, by rw [hP, hD], ?_, ?_, ?_⟩
        · exact alistInsert_sorted _ _ _ hsorted1
        · intro K hK
          rw [hmemSeen K] at hK
          push_neg at hK
          constructor
          · rw [alistFind_insert_ne _ _ _ _ hK.2]
            exact (hnone1 K hK.1 hK.2).1
          · rw [alistFind_insert_ne _ _ _ _ hK.2]
            exact (hnone1 K hK.1 hK.2).2
        · intro K hK
          by_cases hKL : K = s0.layer
          · subst hKL
            refine ⟨cs, hcs, ?_, ?_⟩
            · rw [alistFind_insert_self, hlen']
              rw [modCounterStep N count, if_pos hmodN]
            · refine ⟨_, alistFind_insert_self _ _ _, by simpa using hid1, ?_⟩
              show m1.points ++ _ = _
              rw [hstride, if_pos hcond, hpts1,
                segPoints_append_singleton]
              congr 1
              simp [edgeSegment, hcs, hct]
          · have hK' : K ∈ seenLayers g done := by
              rw [hmemSeen K] at hK
              rcases hK with hK | hK
              · exact hK
              · exact absurd hK hKL
            refine gemLayerProp_congr (heligNe K hKL) ?_
            refine gemLayerProp_state ?_ ?_ (hsome1 K hK')
            · exact alistFind_insert_ne _ _ _ _ hKL
            · exact alistFind_insert_ne _ _ _ _ hKL
      · -- counter short of the skip: drop the edge, increment the counter
        have hD : gemDraw configs vc s0 t0 cs ct st1 = Except.ok
            { st1 with num_since :=
                alistInsert st1.num_since s0.layer (count % (N + 1) + 1) } := by
          rw [gemDraw_eq configs vc s0 t0 cs ct st1 (count % (N + 1)) hcntL,
            if_neg hcond]
        refine ⟨{ st1 with
            num_since := alistInsert st1.num_since s0.layer (count % (N + 1) + 1) },
          by rw [hP, hD], hsorted1, ?_, ?_⟩
        · intro K hK
          rw [hmemSeen K] at hK
          push_neg at hK
          constructor
          · exact (hnone1 K hK.1 hK.2).1
          · show alistFind (alistInsert st1.num_since s0.layer _) K = none
            rw [alistFind_insert_ne _ _ _ _ hK.2]
            exact (hnone1 K hK.1 hK.2).2
        · intro K hK
          by_cases hKL : K = s0.layer
          · subst hKL
            refine ⟨cs, hcs, ?_, ?_⟩
            · show alistFind (alistInsert st1.num_since s0.layer _) s0.layer = _
              rw [alistFind_insert_self, hlen']
              rw [modCounterStep N count, if_neg (by omega)]
            · refine ⟨m1, hm1, hid1, ?_⟩
              rw [hstride, if_neg hcond, List.append_nil]
              exact hpts1
          · have hK' : K ∈ seenLayers g done := by
              rw [hmemSeen K] at hK
              rcases hK with hK | hK
              · exact hK
              · exact absurd hK hKL
            refine gemLayerProp_congr (heligNe K hKL) ?_
            refine @gemLayerProp_state g configs vc done st1 { st1 with
                num_since := alistInsert st1.num_since s0.layer (count % (N + 1) + 1) }
              K rfl ?_ (hsome1 K hK')
            show alistFind (alistInsert st1.num_since s0.layer (count % (N + 1) + 1)) K =
              alistFind st1.num_since K
            exact alistFind_insert_ne _ _ _ _ hKL

theorem gemStep_inv (g : Graph) (configs : List (ℕ × LayerConfig))
    (vc : VisualizerConfig) (done : List Edge) (st : GEMState) (e : Edge)
    (hinv : gemInv g configs vc done st) (he : edgeHypB g configs e = true) :
    ∃ st', gemStep g configs vc st e = Except.ok st' ∧
      gemInv g configs vc (done ++ [e]) st' := by
  obtain ⟨s0, t0, cs, ct, c1, c2, hs, ht, hcs, hct, hsem1, hsem2⟩ := edgeHyp_elim he
  obtain ⟨hsorted, hnone, hsome⟩ := hinv
  by_cases hseen : s0.layer ∈ seenLayers g done
  · obtain ⟨cs', hcs', hcnt', m1, hm1, hid1, hpts1⟩ := hsome s0.layer hseen
    have hcseq : cs' = cs := Option.some.inj (hcs'.symm.trans hcs)
    rw [hcseq] at hcnt' hpts1
    have hcreate : gemCreate configs s0 t0 st = Except.ok st :=
      gemCreate_seen configs s0 t0 st (by rw [hm1]; rfl)
    obtain ⟨st', hproc, hinv'⟩ := gemProcessStep_inv g configs vc done e s0 t0 cs ct
      c1 c2 hs ht hcs hct hsem1 hsem2 st hsorted
      (fun K hK _ => hnone K hK) hsome hcnt' ⟨m1, hm1, hid1, hpts1⟩
    refine ⟨st', ?_, hinv'⟩
    rw [gemStep_eq g configs vc st e s0 t0 hs ht, hcreate]
    exact hproc
  · have hfindnone := (hnone s0.layer hseen).1
    have heligNil : eligEdgesOver g configs done s0.layer = [] :=
      eligEdgesOver_eq_nil g configs s0.layer done hseen
    have hcreate := gemCreate_new configs s0 t0 st cs ct hfindnone hcs hct
    set mNew := (if ct.visualize then makeNewEdgeList cs s0.layer
      else { makeNewEdgeList cs s0.layer with action := .DELETE }) with hmNew
    set st1 : GEMState := ⟨alistInsert st.layer_markers s0.layer mNew,
      alistInsert st.num_since s0.layer 0⟩ with hst1
    obtain ⟨st', hproc, hinv'⟩ := gemProcessStep_inv g configs vc done e s0 t0 cs ct
      c1 c2 hs ht hcs hct hsem1 hsem2 st1
      (alistInsert_sorted _ _ _ hsorted)
      (fun K hK hKne => by
        constructor
        · show alistFind (alistInsert st.layer_markers s0.layer mNew) K = none
          rw [alistFind_insert_ne _ _ _ _ hKne]
          exact (hnone K hK).1
        · show alistFind (alistInsert st.num_since s0.layer 0) K = none
          rw [alistFind_insert_ne _ _ _ _ hKne]
          exact (hnone K hK).2)
      (fun K hK => by
        have hKne : K ≠ s0.layer := fun hc => hseen (hc ▸ hK)
        refine @gemLayerProp_state g configs vc done st st1 K ?_ ?_ (hsome K hK)
        · show alistFind (alistInsert st.layer_markers s0.layer mNew) K = _
          exact alistFind_insert_ne _ _ _ _ hKne
        · show alistFind (alistInsert st.num_since s0.layer 0) K = _
          exact alistFind_insert_ne _ _ _ _ hKne)
      (by
        show alistFind (alistInsert st.num_since s0.layer 0) s0.layer = _
        rw [alistFind_insert_self, heligNil]
        simp)
      (by
        refine ⟨mNew, ?_, ?_, ?_⟩
        · show alistFind (alistInsert st.layer_markers s0.layer mNew) s0.layer = _
          exact alistFind_insert_self _ _ _
        · rw [hmNew]
          by_cases h : ct.visualize <;> simp [h, makeNewEdgeList]
        · rw [heligNil]
          show mNew.points = segPoints configs vc (strideFilter _ 0 [])
          rw [hmNew]
          by_cases h : ct.visualize <;>
            simp [h, makeNewEdgeList, strideFilter, segPoints])
    refine ⟨st', ?_, hinv'⟩
    rw [gemStep_eq g configs vc st e s0 t0 hs ht, hcreate]
    exact hproc

theorem gemLoop_inv (g : Graph) (configs : List (ℕ × LayerConfig))
    (vc : VisualizerConfig) :
    ∀ (rest done : List Edge) (st : GEMState),
      gemInv g configs vc done st →
      (∀ e ∈ rest, edgeHypB g configs e = true) →
      ∃ st', gemLoop g configs vc st rest = Except.ok st' ∧
        gemInv g configs vc (done ++ rest) st' := by
  intro rest
  induction rest with
  | nil =>
    intro done st hinv _
    exact ⟨st, rfl, by simpa using hinv⟩
  | cons e rest' ih =>
    intro done st hinv hall
    obtain ⟨st1, hstep, hinv1⟩ := gemStep_inv g configs vc done st e hinv
      (hall e (List.mem_cons_self e rest'))
    obtain ⟨st', hloop, hinv'⟩ := ih (done ++ [e]) st1 hinv1
      (fun x hx => hall x (List.mem_cons_of_mem _ hx))
    refine ⟨st', ?_, ?_⟩
    · rw [gemLoop, hstep]
      exact hloop
    · have happ : (done ++ [e]) ++ rest' = done ++ e :: rest' := by simp
      rw [← happ]
      exact hinv'

theorem makeGraphEdgeMarkers_spec (g : Graph) (configs : List (ℕ × LayerConfig))
    (vc : VisualizerConfig)
    (hall : ∀ e ∈ g.inter_layer_edges, edgeHypB g configs e = true) :
    ∃ arr, makeGraphEdgeMarkers g configs vc = Except.ok arr ∧
      ∀ m ∈ arr.markers, ∃ cs, alistFind configs m.id = some cs ∧
        m.points = segPoints configs vc
          (strideFilter cs.interlayer_edge_insertion_skip 0
            (eligEdgesOver g configs g.inter_layer_edges m.id)) := by
  have hinv0 : gemInv g configs vc [] ⟨[], []⟩ := by
    refine ⟨List.Pairwise.nil, ?_, ?_⟩
    · intro K _
      exact ⟨rfl, rfl⟩
    · intro K hK
      simp [seenLayers] at hK
  obtain ⟨st', hloop, hinv'⟩ :=
    gemLoop_inv g configs vc g.inter_layer_edges [] ⟨[], []⟩ hinv0 hall
  obtain ⟨hsorted', hnone', hsome'⟩ := hinv'
  refine ⟨⟨st'.layer_markers.map Prod.snd⟩, ?_, ?_⟩
  · rw [makeGraphEdgeMarkers, hloop]
  · intro m hm
    obtain ⟨p, hpmem, hpsnd⟩ := List.mem_map.mp hm
    obtain ⟨K, m2⟩ := p
    cases hpsnd
    have hfind : alistFind st'.layer_markers K = some m2 :=
      alistFind_of_mem _ K m2 hsorted' hpmem
    by_cases hseen : K ∈ seenLayers g ([] ++ g.inter_layer_edges)
    · obtain ⟨cs, hcs, _, m3, hm3, hid3, hpts3⟩ := hsome' K hseen
      have hm23 : m3 = m2 := by
        rw [hfind] at hm3
        exact (Option.some.inj hm3).symm
      subst hm23
      rw [hid3]
      exact ⟨cs, hcs, hpts3⟩
    · rw [(hnone' K hseen).1] at hfind
      cases hfind

/-- C3: in the inter-layer edge builder, for every source layer with
configured skip N, exactly every (N+1)-th ELIGIBLE edge in traversal order
is drawn (those at one-based eligible positions divisible by N+1: the skip
counter, tracked independently per source layer, is reset to zero on each
drawn edge and incremented on each skipped one). -/
theorem c3_interlayer_edge_stride (g : Graph) (configs : List (ℕ × LayerConfig))
    (vc : VisualizerConfig)
    (hall : ∀ e ∈ g.inter_layer_edges, edgeHypB g configs e = true) :
    ∃ arr, makeGraphEdgeMarkers g configs vc = Except.ok arr ∧
      ∀ m ∈ arr.markers, ∀ cs, alistFind configs m.id = some cs →
        m.points = segPoints configs vc
          (((eligEdgesOver g configs g.inter_layer_edges m.id).enum.filter
              (fun p => (p.1 + 1) % (cs.interlayer_edge_insertion_skip + 1) == 0)).map
            Prod.snd) := by
  obtain ⟨arr, harr, hspec⟩ := makeGraphEdgeMarkers_spec g configs vc hall
  refine ⟨arr, harr, ?_⟩
  intro m hm cs hcs
  obtain ⟨cs', hcs', hpts⟩ := hspec m hm
  have hcseq : cs' = cs := Option.some.inj (hcs'.symm.trans hcs)
  subst hcseq
  rw [hpts, strideFilter_eq_enumFilter]

/-- Parent node of the C3 witness graph (layer 1). -/
def c3Parent : Node := ⟨10, 1, NodeAttrs.semantic ⟨0, 0, 0⟩ ⟨1, 0, 0⟩⟩

/-- Child nodes of the C3 witness graph (layer 2). -/
def c3Child (i : ℕ) : Node := ⟨i, 2, NodeAttrs.semantic ⟨1, 1, 1⟩ ⟨0, 1, 0⟩⟩

/-- The C3 witness graph: three inter-layer edges from layer 1 to 2. -/
def c3Graph : Graph :=
  ⟨[⟨1, [c3Parent], []⟩, ⟨2, [c3Child 20, c3Child 21, c3Child 22], []⟩],
   [⟨10, 20⟩, ⟨10, 21⟩, ⟨10, 22⟩], []⟩

/-- The C3 witness configs: skip 1 on the parent layer. -/
def c3Configs : List (ℕ × LayerConfig) :=
  [(1, { interlayer_edge_insertion_skip := 1 }), (2, {})]

/-- C3 witness: the theorem instantiated on the concrete graph. -/
theorem c3_interlayer_edge_stride_witness :
    ∃ arr, makeGraphEdgeMarkers c3Graph c3Configs {} = Except.ok arr ∧
      ∀ m ∈ arr.markers, ∀ cs, alistFind c3Configs m.id = some cs →
        m.points = segPoints c3Configs {}
          (((eligEdgesOver c3Graph c3Configs c3Graph.inter_layer_edges m.id).enum.filter
              (fun p => (p.1 + 1) % (cs.interlayer_edge_insertion_skip + 1) == 0)).map
            Prod.snd) :=
  c3_interlayer_edge_stride c3Graph c3Configs {} (by decide)

/-- C6: every segment of every inter-layer edge batch comes from a drawn
subset of the ELIGIBLE edges of that batch's source layer: each drawn edge
has its source node in the batch's layer (batches are grouped strictly by
source layer, keyed by it), resolves in the graph, and has both endpoint
layers configured with visualize on — so an edge whose target (or source)
layer has visualize = false contributes no geometry to any batch. -/
theorem c6_interlayer_edge_visibility (g : Graph)
    (configs : List (ℕ × LayerConfig)) (vc : VisualizerConfig)
    (hall : ∀ e ∈ g.inter_layer_edges, edgeHypB g configs e = true) :
    ∃ arr, makeGraphEdgeMarkers g configs vc = Except.ok arr ∧
      ∀ m ∈ arr.markers, ∃ sub : List (Node × Node),
        List.Sublist sub (eligEdgesOver g configs g.inter_layer_edges m.id) ∧
        m.points = segPoints configs vc sub ∧
        ∀ p ∈ sub, p.1.layer = m.id ∧
          (∃ e ∈ g.inter_layer_edges, g.getNode e.source = some p.1 ∧
            g.getNode e.target = some p.2) ∧
          ∃ cs ct, alistFind configs p.1.layer = some cs ∧
            alistFind configs p.2.layer = some ct ∧
            cs.visualize = true ∧ ct.visualize = true := by
  obtain ⟨arr, harr, hspec⟩ := makeGraphEdgeMarkers_spec g configs vc hall
  refine ⟨arr, harr, ?_⟩
  intro m hm
  obtain ⟨cs, hcs, hpts⟩ := hspec m hm
  refine ⟨strideFilter cs.interlayer_edge_insertion_skip 0
      (eligEdgesOver g configs g.inter_layer_edges m.id),
    strideFilter_sublist _ _ _, hpts, ?_⟩
  intro p hp
  have hmem : p ∈ eligEdgesOver g configs g.inter_layer_edges m.id :=
    (strideFilter_sublist _ _ _).subset hp
  obtain ⟨e, hemem, hfe⟩ := eligEdgesOver_mem hmem
  obtain ⟨h1, h2, h3, cs2, ct2, hc1, hc2, hv1, hv2⟩ := edgeEligFor_spec hfe
  exact ⟨h1, ⟨e, hemem, h2, h3⟩, cs2, ct2, hc1, hc2, hv1, hv2⟩

/-- Parent node of the C6 witness graph (layer 1). -/
def c6Parent : Node := ⟨10, 1, NodeAttrs.semantic ⟨0, 0, 0⟩ ⟨1, 0, 0⟩⟩

/-- Visible child of the C6 witness graph (layer 2). -/
def c6Child : Node := ⟨20, 2, NodeAttrs.semantic ⟨1, 1, 1⟩ ⟨0, 1, 0⟩⟩

/-- Child in the hidden layer 3 of the C6 witness graph. -/
def c6Hidden : Node := ⟨30, 3, NodeAttrs.semantic ⟨2, 2, 2⟩ ⟨0, 0, 1⟩⟩

/-- The C6 witness graph: one edge into a visible layer, one into a layer
whose configuration has visualize = false. -/
def c6Graph : Graph :=
  ⟨[⟨1, [c6Parent], []⟩, ⟨2, [c6Child], []⟩, ⟨3, [c6Hidden], []⟩],
   [⟨10, 20⟩, ⟨10, 30⟩], []⟩

/-- The C6 witness configs: layer 3 is not visualized. -/
def c6Configs : List (ℕ × LayerConfig) :=
  [(1, {}), (2, {}), (3, { visualize := false })]

/-- C6 witness: the theorem instantiated on the concrete graph. -/
theorem c6_interlayer_edge_visibility_witness :
    ∃ arr, makeGraphEdgeMarkers c6Graph c6Configs {} = Except.ok arr ∧
      ∀ m ∈ arr.markers, ∃ sub : List (Node × Node),
        List.Sublist sub (eligEdgesOver c6Graph c6Configs
          c6Graph.inter_layer_edges m.id) ∧
        m.points = segPoints c6Configs {} sub ∧
        ∀ p ∈ sub, p.1.layer = m.id ∧
          (∃ e ∈ c6Graph.inter_layer_edges, c6Graph.getNode e.source = some p.1 ∧
            c6Graph.getNode e.target = some p.2) ∧
          ∃ cs ct, alistFind c6Configs p.1.layer = some cs ∧
            alistFind c6Configs p.2.layer = some ct ∧
            cs.visualize = true ∧ ct.visualize = true :=
  c6_interlayer_edge_visibility c6Graph c6Configs {} (by decide)

end KimeraViz
